import Mathlib

/-!
Verification of the SafeSpread quoting engine and its strategy orchestrator
(`poly_market_maker/strategies/safe_spread.py` and `safe_spread_strategy.py`).

Prices and sizes are embedded as exact rationals (`ℚ`); Python's `round(x, d)`
(round to nearest with ties to even) is embedded as `roundDec d`.
-/

namespace PolyMarketMaker

/-- Modelled from the spec: `poly_market_maker/constants.py` is not under `src/`.
The spec fixes a one-tick grid consistent with two-decimal prices (targets such
as 0.48/0.52, and "existing BUY at 0.479 (within one-tick of target 0.48)"),
so `MIN_TICK` is one hundredth. -/
def MIN_TICK : ℚ := 1 / 100

/-- Modelled from the spec: `poly_market_maker/constants.py` is not under `src/`.
The exchange-level minimum order size referenced by the sizing clamps. -/
def MIN_SIZE : ℚ := 15

/-- Modelled from the spec: `poly_market_maker/constants.py` is not under `src/`.
The fixed maximum decimal precision every price and size is rounded to. -/
def MAX_DECIMALS : ℕ := 2

/-- Round a rational to the nearest integer, ties to even (Python's `round`). -/
def rndHalfEven (x : ℚ) : ℤ :=
  if x - Int.floor x < 1 / 2 then Int.floor x
  else if 1 / 2 < x - Int.floor x then Int.floor x + 1
  else if Int.floor x % 2 = 0 then Int.floor x else Int.floor x + 1

/-- Python's `round(x, d)`: round to `d` decimal digits, ties to even. -/
def roundDec (d : ℕ) (x : ℚ) : ℚ :=
  (rndHalfEven (x * 10 ^ d) : ℚ) / 10 ^ d

/-- Modelled from the spec: `poly_market_maker/order.py` is not under `src/`.
An order is a BUY or a SELL. -/
inductive Side where
  | BUY : Side
  | SELL : Side
deriving DecidableEq, Repr

/-- Modelled from the spec: `poly_market_maker/token.py` is not under `src/`.
Exactly two complementary outcome tokens. -/
inductive Token where
  | A : Token
  | B : Token
deriving DecidableEq, Repr

/-- Modelled from the spec: `complement()` maps each outcome token to the other. -/
def Token.complement : Token → Token
  | Token.A => Token.B
  | Token.B => Token.A

/-- Modelled from the spec: `poly_market_maker/order.py` is not under `src/`.
An immutable order value compared by value equality. -/
structure Order where
  price : ℚ
  size : ℚ
  side : Side
  token : Token
deriving DecidableEq, Repr

/-- Embeds `_round_price` of `safe_spread.py`: clamp to `[MIN_TICK, 1 - MIN_TICK]`
then round to `MAX_DECIMALS` decimals. -/
def _round_price (x : ℚ) : ℚ :=
  roundDec MAX_DECIMALS (max MIN_TICK (min (1 - MIN_TICK) x))

/-- Embeds `_clamp` of `safe_spread.py`. -/
def _clamp (x lo hi : ℚ) : ℚ := max lo (min hi x)

/-- Embeds the looked-up configuration of `SafeSpread.__init__` together with
the live context later installed by `set_context` (`_balances`,
`_free_collateral`). -/
structure SafeSpread where
  target_spread : ℚ
  half_spread_override : Option ℚ
  order_size : ℚ
  max_bids : ℤ
  max_asks : ℤ
  cancel_if_away_by : ℚ
  max_inventory_per_token : ℚ
  max_notional_per_side : ℚ
  skew_per_unit : ℚ
  min_place_size : ℚ
  balances : Token → ℚ
  free_collateral : ℚ

/-- Embeds the inner `get(keys, default)` helper of `SafeSpread.__init__`:
return the value of the first key present in the configuration dict, if any. -/
def cfg_get (cfg : List (String × ℚ)) : List String → Option ℚ
  | [] => none
  | k :: ks =>
    match cfg.lookup k with
    | some v => some v
    | none => cfg_get cfg ks

/-- The `get(keys, default)` helper specialized to a numeric default. -/
def cfg_getD (cfg : List (String × ℚ)) (keys : List String) (default : ℚ) : ℚ :=
  (cfg_get cfg keys).getD default

/-- Python `int()` applied to a number: truncation toward zero. -/
def pyInt (q : ℚ) : ℤ := if 0 ≤ q then Int.floor q else -Int.floor (-q)

/-- Embeds `SafeSpread.__init__(cfg)`: resolve each parameter by its snake_case
name first and its camelCase name second, with the documented defaults; the
live context starts out as zero balances and zero free collateral. -/
def SafeSpread.init (cfg : List (String × ℚ)) : SafeSpread where
  target_spread := cfg_getD cfg ["target_spread", "targetSpread"] (3 / 100)
  half_spread_override := cfg_get cfg ["half_spread_override", "halfSpreadOverride"]
  order_size := cfg_getD cfg ["order_size", "orderSize"] 10
  max_bids := pyInt (cfg_getD cfg ["max_bids", "maxBids"] 2)
  max_asks := pyInt (cfg_getD cfg ["max_asks", "maxAsks"] 2)
  cancel_if_away_by := cfg_getD cfg ["cancel_if_away_by", "cancelIfAwayBy"] (1 / 50)
  max_inventory_per_token := cfg_getD cfg ["max_inventory_per_token", "maxInventoryPerToken"] 40
  max_notional_per_side := cfg_getD cfg ["max_notional_per_side", "maxNotionalPerSide"] 120
  skew_per_unit := cfg_getD cfg ["skew_per_unit", "skewPerUnit"] (1 / 2000)
  min_place_size := cfg_getD cfg ["min_place_size", "minPlaceSize"] (1 / 10)
  balances := fun _ => 0
  free_collateral := 0

/-- Embeds `SafeSpread.set_context`: wholesale replacement of the live context. -/
def SafeSpread.set_context (mm : SafeSpread) (balances : Token → ℚ)
    (free_collateral : ℚ) : SafeSpread :=
  { mm with balances := balances, free_collateral := free_collateral }

/-- Embeds `SafeSpread._mid_with_skew`. -/
def SafeSpread._mid_with_skew (mm : SafeSpread) (base_mid : ℚ) (token : Token) : ℚ :=
  _round_price (base_mid - mm.balances token * mm.skew_per_unit)

/-- The `half` local of `SafeSpread._desired_quotes`: the half-spread override
when set, else half the target spread, floored at one tick. -/
def SafeSpread.half_width (mm : SafeSpread) : ℚ :=
  max
    (match mm.half_spread_override with
     | some h => h
     | none => mm.target_spread / 2)
    MIN_TICK

/-- Embeds `SafeSpread._desired_quotes`: `(bid, ask)` around a midpoint, with
the degenerate-spread guard forcing `ask = _round_price (bid + MIN_TICK)`. -/
def SafeSpread._desired_quotes (mm : SafeSpread) (mid : ℚ) : ℚ × ℚ :=
  let bid := _round_price (mid - mm.half_width)
  let ask := _round_price (mid + mm.half_width)
  if ask ≤ bid then (bid, _round_price (bid + MIN_TICK)) else (bid, ask)

/-- Embeds `effective_price` of `cancellable_orders` (and the identical `p_eff`
of `new_orders.has_near`): a SELL on the complement is mapped into buy-token
price space as `round(1 - price, MAX_DECIMALS)`. -/
def effective_price (o : Order) : ℚ :=
  match o.side with
  | Side.BUY => o.price
  | Side.SELL => roundDec MAX_DECIMALS (1 - o.price)

/-- Embeds the buy-token deduction loop of `cancellable_orders`: the first
BUY's token, else the complement of the first SELL's token. -/
def findBuyToken (orders : List Order) : Option Token :=
  match orders.find? (fun o => decide (o.side = Side.BUY)) with
  | some o => some o.token
  | none =>
    match orders.find? (fun o => decide (o.side = Side.SELL)) with
    | some o => some o.token.complement
    | none => none

/-- Python `lst[n:]` (as used on the sorted keep-lists of `cancellable_orders`). -/
def pySliceFrom (n : ℤ) (l : List Order) : List Order :=
  if 0 ≤ n then l.drop n.toNat else l.drop ((l.length : ℤ) + n).toNat

/-- The `closeness` local of `cancellable_orders`: distance of an order's
effective price to its side's target in the quote pair `q`. -/
def closenessTo (q : ℚ × ℚ) (o : Order) : ℚ :=
  |effective_price o - (if o.side = Side.BUY then q.1 else q.2)|

/-- The `far_aways` list of `cancellable_orders`: orders whose effective price
deviates from their side's target by more than `cancel_if_away_by`. -/
def farAways (mm : SafeSpread) (q : ℚ × ℚ) (orders : List Order) : List Order :=
  orders.filter (fun o => decide (mm.cancel_if_away_by < closenessTo q o))

/-- The `keep_buys` / `keep_sells` lists of `cancellable_orders`: the non-far
orders of one side. -/
def keepSide (s : Side) (far : List Order) (orders : List Order) : List Order :=
  orders.filter (fun o => decide (o.side = s ∧ o ∉ far))

/-- The `keep_buys.sort(key=closeness)` step of `cancellable_orders` (Python's
stable ascending sort). -/
def sortClose (q : ℚ × ℚ) (l : List Order) : List Order :=
  l.mergeSort (fun a b => decide (closenessTo q a ≤ closenessTo q b))

/-- The `cancel_extra_buys` / `cancel_extra_sells` slices of
`cancellable_orders`: everything past rank `n` in the sorted keep-list. -/
def excess (n : ℤ) (l : List Order) : List Order :=
  if n < (l.length : ℤ) then pySliceFrom n l else []

/-- Embeds `SafeSpread.cancellable_orders`: far-away quotes plus excess quotes
beyond `max_bids`/`max_asks`, keeping those closest to target. -/
def SafeSpread.cancellable_orders (mm : SafeSpread) (orders : List Order)
    (target_price : ℚ) : List Order :=
  if orders.isEmpty then []
  else
    match findBuyToken orders with
    | none => []
    | some buy_token =>
      let mid := mm._mid_with_skew target_price buy_token
      let q := mm._desired_quotes mid
      let far_aways := farAways mm q orders
      let keep_buys := keepSide Side.BUY far_aways orders
      let keep_sells := keepSide Side.SELL far_aways orders
      far_aways ++ excess mm.max_bids (sortClose q keep_buys) ++
        excess mm.max_asks (sortClose q keep_sells)

/-- Embeds `SafeSpread._can_place_ask`. -/
def SafeSpread._can_place_ask (mm : SafeSpread) (token_balance : ℚ) : Bool :=
  decide (max mm.min_place_size MIN_SIZE ≤ token_balance)

/-- Embeds `SafeSpread._ask_size`: standard size, raised to sell off any excess
over the inventory cap, clamped to `[MIN_SIZE, token_balance]` and rounded. -/
def SafeSpread._ask_size (mm : SafeSpread) (token_balance : ℚ) (token : Token) : ℚ :=
  let size := min mm.order_size token_balance
  let inv := mm.balances token
  let size :=
    if mm.max_inventory_per_token < inv then
      max size (min (inv - mm.max_inventory_per_token) token_balance)
    else size
  roundDec MAX_DECIMALS (_clamp size MIN_SIZE token_balance)

/-- Embeds `SafeSpread._can_place_bid`. -/
def SafeSpread._can_place_bid (mm : SafeSpread) (collateral_balance price : ℚ)
    (buy_token : Token) : Bool :=
  decide (¬ collateral_balance < price * max mm.min_place_size MIN_SIZE ∧
    ¬ mm.max_notional_per_side < price * mm.order_size ∧
    mm.balances buy_token < mm.max_inventory_per_token)

/-- Embeds `SafeSpread._bid_size`. -/
def SafeSpread._bid_size (mm : SafeSpread) (collateral_balance price : ℚ)
    (buy_token : Token) : ℚ :=
  let max_by_cash := collateral_balance / price
  let max_by_notional := mm.max_notional_per_side / price
  let headroom := max 0 (mm.max_inventory_per_token - mm.balances buy_token)
  let size := min mm.order_size (min max_by_cash (min max_by_notional headroom))
  roundDec MAX_DECIMALS (_clamp size MIN_SIZE (10 ^ 9))

/-- Embeds `has_near` of `SafeSpread.new_orders` with its default `eps = MIN_TICK`. -/
def has_near (orders : List Order) (side : Side) (price_buy_space : ℚ) : Bool :=
  orders.any (fun o =>
    decide (o.side = side ∧ |effective_price o - price_buy_space| ≤ MIN_TICK))

/-- The ASK half of `SafeSpread.new_orders`: a SELL on the complement token at
`_round_price (1 - ask_target)`, gated on near-duplicate suppression,
eligibility and the minimum placeable size. -/
def askPart (mm : SafeSpread) (orders : List Order) (token_balance : ℚ)
    (q : ℚ × ℚ) (buy_token : Token) : List Order :=
  if !has_near orders Side.SELL q.2 && mm._can_place_ask token_balance then
    let ask_size := mm._ask_size token_balance buy_token.complement
    if max mm.min_place_size MIN_SIZE ≤ ask_size then
      [⟨_round_price (1 - q.2), ask_size, Side.SELL, buy_token.complement⟩]
    else []
  else []

/-- The BID half of `SafeSpread.new_orders`: a BUY on the buy token at the bid
target, gated on near-duplicate suppression, eligibility and the minimum
placeable size. -/
def bidPart (mm : SafeSpread) (orders : List Order) (collateral_balance : ℚ)
    (q : ℚ × ℚ) (buy_token : Token) : List Order :=
  if !has_near orders Side.BUY q.1 && mm._can_place_bid collateral_balance q.1 buy_token then
    let bid_size := mm._bid_size collateral_balance q.1 buy_token
    if max mm.min_place_size MIN_SIZE ≤ bid_size then
      [⟨q.1, bid_size, Side.BUY, buy_token⟩]
    else []
  else []

/-- Embeds `SafeSpread.new_orders`: at most one SELL on the complement token and
one BUY on the buy token. -/
def SafeSpread.new_orders (mm : SafeSpread) (orders : List Order)
    (collateral_balance token_balance target_price : ℚ) (buy_token : Token) :
    List Order :=
  let mid := mm._mid_with_skew target_price buy_token
  let q := mm._desired_quotes mid
  askPart mm orders token_balance q buy_token ++
    bidPart mm orders collateral_balance q buy_token

/-- Modelled from the spec: the order-book snapshot handed to the Orchestrator
(`orderbook.py` is not under `src/`): resting orders, per-token balances and
the collateral balance. -/
structure OrderBook where
  orders : List Order
  balances : Token → ℚ
  collateral : ℚ

namespace SafeSpreadStrategy

/-- Embeds `SafeSpreadStrategy._filter_by_corresponding_buy_token`. -/
def corresponds (o : Order) (buy_token : Token) : Prop :=
  (o.side = Side.BUY ∧ o.token = buy_token) ∨ (o.side = Side.SELL ∧ o.token ≠ buy_token)

instance (o : Order) (t : Token) : Decidable (corresponds o t) := by
  unfold corresponds
  infer_instance

/-- Embeds `SafeSpreadStrategy._orders_by_corresponding_buy_token`. -/
def ordersByBuyToken (orders : List Order) (buy_token : Token) : List Order :=
  orders.filter (fun o => decide (corresponds o buy_token))

/-- Sum of `size * price` over the BUYs of a list (the collateral it locks). -/
def buyNotional (l : List Order) : ℚ :=
  ((l.filter (fun o => decide (o.side = Side.BUY))).map (fun o => o.size * o.price)).sum

/-- The cancel phase of `SafeSpreadStrategy.get_orders`: union of the per-pair
cancellations, in token enumeration order. -/
def ordersToCancel (mm : SafeSpread) (ob : OrderBook) (tp : Token → ℚ) : List Order :=
  mm.cancellable_orders (ordersByBuyToken ob.orders Token.A) (tp Token.A) ++
    mm.cancellable_orders (ordersByBuyToken ob.orders Token.B) (tp Token.B)

/-- The hypothetical remaining order set after the cancel phase. -/
def openOrders (mm : SafeSpread) (ob : OrderBook) (tp : Token → ℚ) : List Order :=
  ob.orders.filter (fun o => decide (o ∉ ordersToCancel mm ob tp))

/-- The `free_collateral_balance` before the placement loop: total collateral minus
collateral locked by the surviving BUYs. -/
def freeCollateralStart (mm : SafeSpread) (ob : OrderBook) (tp : Token → ℚ) : ℚ :=
  ob.collateral - buyNotional (openOrders mm ob tp)

/-- Inventory of a token locked by the surviving SELLs on it. -/
def lockedSells (mm : SafeSpread) (ob : OrderBook) (tp : Token → ℚ) (t : Token) : ℚ :=
  (((openOrders mm ob tp).filter
    (fun o => decide (o.side = Side.SELL ∧ o.token = t))).map (fun o => o.size)).sum

/-- Free (sellable) balance of a token after the cancel phase. -/
def freeTokenBalance (mm : SafeSpread) (ob : OrderBook) (tp : Token → ℚ) (t : Token) : ℚ :=
  ob.balances t - lockedSells mm ob tp t

/-- Embeds `SafeSpreadStrategy.get_orders`: cancel phase, context publication,
then the placement loop over both tokens with the running free collateral
decremented by each pair's new BUY notional. -/
def get_orders (mm : SafeSpread) (ob : OrderBook) (tp : Token → ℚ) :
    List Order × List Order :=
  let cancels := ordersToCancel mm ob tp
  let free0 := freeCollateralStart mm ob tp
  let mm1 := mm.set_context ob.balances free0
  let newA := mm1.new_orders (ordersByBuyToken ob.orders Token.A) free0
    (freeTokenBalance mm ob tp Token.A.complement) (tp Token.A) Token.A
  let free1 := free0 - buyNotional newA
  let newB := mm1.new_orders (ordersByBuyToken ob.orders Token.B) free1
    (freeTokenBalance mm ob tp Token.B.complement) (tp Token.B) Token.B
  (cancels, newA ++ newB)

end SafeSpreadStrategy

/-! ## Concrete instances used as test inputs by witnesses and counterexamples -/

/-- Engine with `target_spread = 0.02` (bid/ask one tick around the midpoint). -/
def mm_ts02 : SafeSpread := SafeSpread.init [("target_spread", 1 / 50)]

/-- Engine with `order_size = 20` and `target_spread = 0.02`. -/
def mm_os20 : SafeSpread := SafeSpread.init [("order_size", 20), ("target_spread", 1 / 50)]

/-- Engine with `target_spread = 0.02` and `max_bids = 1`. -/
def mm_caps1 : SafeSpread := SafeSpread.init [("target_spread", 1 / 50), ("max_bids", 1)]

/-- Balance snapshot holding 39.5 of token A. -/
def bal395 : Token → ℚ := fun t => match t with | Token.A => 395 / 10 | Token.B => 0

/-- Engine `mm_ts02` with holdings 39.5 of token A published as context. -/
def mm_inv395 : SafeSpread := mm_ts02.set_context bal395 100

/-- The twenty configuration names recognized by `SafeSpread.init`. -/
def recognizedKeys : List String :=
  ["target_spread", "targetSpread", "half_spread_override", "halfSpreadOverride",
   "order_size", "orderSize", "max_bids", "maxBids", "max_asks", "maxAsks",
   "cancel_if_away_by", "cancelIfAwayBy", "max_inventory_per_token", "maxInventoryPerToken",
   "max_notional_per_side", "maxNotionalPerSide", "skew_per_unit", "skewPerUnit",
   "min_place_size", "minPlaceSize"]

/-- Two resting BUYs at 0.479 and 0.477 (distances 0.001 and 0.003 from a 0.48
bid target). -/
def ords2 : List Order :=
  [⟨479 / 1000, 20, Side.BUY, Token.A⟩, ⟨477 / 1000, 20, Side.BUY, Token.A⟩]

/-- Order book with no resting orders, no token holdings and collateral 7.503. -/
def ob7503 : OrderBook := ⟨[], fun _ => 0, 7503 / 1000⟩

/-! ## Rounding lemmas -/

theorem floor_le_rndHalfEven (x : ℚ) : Int.floor x ≤ rndHalfEven x := by
  unfold rndHalfEven
  split
  · exact le_refl _
  · split
    · exact Int.le.intro 1 rfl
    · split
      · exact le_refl _
      · exact Int.le.intro 1 rfl

theorem rndHalfEven_le_ceil (x : ℚ) : rndHalfEven x ≤ Int.ceil x := by
  unfold rndHalfEven
  have hfc : (Int.floor x : ℚ) ≤ x := Int.floor_le x
  have h1 : x ≤ Int.ceil x := Int.le_ceil x
  split
  · exact le_trans (Int.floor_le_ceil x) (le_refl _)
  · -- in the remaining branches 1/2 ≤ x - ⌊x⌋, so x is not an integer
    rename_i h
    push_neg at h
    have hx : (Int.floor x : ℚ) < x := by
      by_contra hc
      push_neg at hc
      have : x = (Int.floor x : ℚ) := le_antisymm hc hfc
      rw [this] at h
      simp at h
      norm_num at h
    have hceil : Int.floor x + 1 ≤ Int.ceil x := by
      have : Int.floor x < Int.ceil x := by
        by_contra hc
        push_neg at hc
        have h2 : (Int.ceil x : ℚ) ≤ (Int.floor x : ℚ) := by exact_mod_cast hc
        exact absurd (le_antisymm (le_trans h1 h2) hfc) (ne_of_gt hx)
      omega
    split
    · exact hceil
    · split
      · omega
      · exact hceil

theorem rndHalfEven_sub_le (x : ℚ) : |(rndHalfEven x : ℚ) - x| ≤ 1 / 2 := by
  unfold rndHalfEven
  have hfl : (Int.floor x : ℚ) ≤ x := Int.floor_le x
  have hfu : x < Int.floor x + 1 := Int.lt_floor_add_one x
  split
  · rename_i h
    rw [abs_le]
    constructor <;> push_cast <;> linarith
  · rename_i h
    push_neg at h
    split
    · rename_i h2
      rw [abs_le]
      constructor <;> push_cast <;> linarith
    · rename_i h2
      push_neg at h2
      have hx : x - Int.floor x = 1 / 2 := le_antisymm h2 h
      split
      · rw [abs_le]
        constructor <;> push_cast <;> linarith
      · rw [abs_le]
        constructor <;> push_cast <;> linarith

theorem rndHalfEven_intCast (n : ℤ) : rndHalfEven (n : ℚ) = n := by
  unfold rndHalfEven
  rw [Int.floor_intCast]
  simp

theorem roundDec_sub_le (d : ℕ) (x : ℚ) :
    |roundDec d x - x| ≤ 1 / (2 * 10 ^ d) := by
  unfold roundDec
  have h10 : (0 : ℚ) < 10 ^ d := by positivity
  have h := rndHalfEven_sub_le (x * 10 ^ d)
  have key : |(rndHalfEven (x * 10 ^ d) : ℚ) / 10 ^ d - x|
      = |(rndHalfEven (x * 10 ^ d) : ℚ) - x * 10 ^ d| / 10 ^ d := by
    rw [← abs_of_pos h10, ← abs_div]
    congr 1
    field_simp
    ring
  rw [key]
  rw [div_le_div_iff₀ h10 (by positivity)]
  calc |(rndHalfEven (x * 10 ^ d) : ℚ) - x * 10 ^ d| * (2 * 10 ^ d)
      ≤ (1 / 2) * (2 * 10 ^ d) := by
        apply mul_le_mul_of_nonneg_right h (by positivity)
    _ = 1 * 10 ^ d := by ring

/-- If `a` is on the `d`-decimal grid and `a ≤ x`, rounding cannot go below `a`. -/
theorem le_roundDec_of_grid (d : ℕ) (a x : ℚ) (n : ℤ) (hn : a * 10 ^ d = n)
    (h : a ≤ x) : a ≤ roundDec d x := by
  unfold roundDec
  have h10 : (0 : ℚ) < 10 ^ d := by positivity
  rw [le_div_iff₀ h10, hn]
  have h1 : (n : ℚ) ≤ x * 10 ^ d := by
    rw [← hn]
    exact mul_le_mul_of_nonneg_right h (le_of_lt h10)
  have h2 : n ≤ Int.floor (x * 10 ^ d) := Int.le_floor.mpr h1
  exact_mod_cast le_trans h2 (floor_le_rndHalfEven _)

/-- If `b` is on the `d`-decimal grid and `x ≤ b`, rounding cannot go above `b`. -/
theorem roundDec_le_of_grid (d : ℕ) (b x : ℚ) (n : ℤ) (hn : b * 10 ^ d = n)
    (h : x ≤ b) : roundDec d x ≤ b := by
  unfold roundDec
  have h10 : (0 : ℚ) < 10 ^ d := by positivity
  rw [div_le_iff₀ h10, hn]
  have h1 : x * 10 ^ d ≤ (n : ℚ) := by
    rw [← hn]
    exact mul_le_mul_of_nonneg_right h (le_of_lt h10)
  have h2 : Int.ceil (x * 10 ^ d) ≤ n := Int.ceil_le.mpr h1
  exact_mod_cast le_trans (rndHalfEven_le_ceil _) h2

/-- Rounding fixes grid points. -/
theorem roundDec_grid_fix (d : ℕ) (x : ℚ) (n : ℤ) (hn : x * 10 ^ d = n) :
    roundDec d x = x := by
  unfold roundDec
  rw [hn, rndHalfEven_intCast]
  have h10 : (10 : ℚ) ^ d ≠ 0 := by positivity
  field_simp [← hn]

theorem roundDec_le_add (d : ℕ) (x : ℚ) : roundDec d x ≤ x + 1 / (2 * 10 ^ d) := by
  have h := roundDec_sub_le d x
  rw [abs_le] at h
  linarith [h.2]

theorem sub_le_roundDec (d : ℕ) (x : ℚ) : x - 1 / (2 * 10 ^ d) ≤ roundDec d x := by
  have h := roundDec_sub_le d x
  rw [abs_le] at h
  linarith [h.1]

/-- The output of `roundDec d` is always on the `d`-decimal grid. -/
theorem roundDec_on_grid (d : ℕ) (x : ℚ) :
    ∃ n : ℤ, roundDec d x = (n : ℚ) / 10 ^ d :=
  ⟨rndHalfEven (x * 10 ^ d), rfl⟩

theorem rndHalfEven_eq_low (x : ℚ) (n : ℤ) (h1 : (n : ℚ) ≤ x) (h2 : x < (n : ℚ) + 1 / 2) :
    rndHalfEven x = n := by
  have hf : Int.floor x = n := Int.floor_eq_iff.mpr ⟨h1, by push_cast; linarith⟩
  unfold rndHalfEven
  rw [hf, if_pos (show x - (n : ℚ) < 1 / 2 by linarith)]

theorem rndHalfEven_eq_high (x : ℚ) (n : ℤ) (h1 : (n : ℚ) + 1 / 2 < x)
    (h2 : x ≤ (n : ℚ) + 1) : rndHalfEven x = n + 1 := by
  rcases eq_or_lt_of_le h2 with heq | hlt
  · rw [heq, show ((n : ℚ) + 1) = ((n + 1 : ℤ) : ℚ) by push_cast; ring, rndHalfEven_intCast]
  · have hf : Int.floor x = n := Int.floor_eq_iff.mpr ⟨by linarith, by push_cast; linarith⟩
    unfold rndHalfEven
    rw [hf, if_neg (by linarith), if_pos (by linarith)]

theorem roundDec_eval_low (d : ℕ) (x : ℚ) (n : ℤ) (h1 : (n : ℚ) ≤ x * 10 ^ d)
    (h2 : x * 10 ^ d < (n : ℚ) + 1 / 2) : roundDec d x = (n : ℚ) / 10 ^ d := by
  unfold roundDec
  rw [rndHalfEven_eq_low (x * 10 ^ d) n h1 h2]

theorem roundDec_eval_high (d : ℕ) (x : ℚ) (n : ℤ) (h1 : (n : ℚ) + 1 / 2 < x * 10 ^ d)
    (h2 : x * 10 ^ d ≤ (n : ℚ) + 1) : roundDec d x = ((n : ℚ) + 1) / 10 ^ d := by
  unfold roundDec
  rw [rndHalfEven_eq_high (x * 10 ^ d) n h1 h2]
  push_cast
  ring

/-! ## Lemmas about `_round_price` and `_desired_quotes` -/

/-- When the argument already lies in the clamp interval, `_round_price` is just
decimal rounding. -/
theorem round_price_eval_clamped (x : ℚ) (h1 : MIN_TICK ≤ x) (h2 : x ≤ 1 - MIN_TICK) :
    _round_price x = roundDec MAX_DECIMALS x := by
  unfold _round_price
  rw [min_eq_right h2, max_eq_right h1]

/-- Renormalization by `_round_price` fixes grid points inside the clamp interval. -/
theorem round_price_eval_grid (x : ℚ) (n : ℤ) (h1 : MIN_TICK ≤ x) (h2 : x ≤ 1 - MIN_TICK)
    (hg : x * 10 ^ MAX_DECIMALS = n) : _round_price x = x := by
  rw [round_price_eval_clamped x h1 h2]
  exact roundDec_grid_fix _ _ n hg

theorem roundPrice_ge (x : ℚ) : MIN_TICK ≤ _round_price x := by
  unfold _round_price
  apply le_roundDec_of_grid MAX_DECIMALS MIN_TICK _ 1
  · norm_num [MIN_TICK, MAX_DECIMALS]
  · exact le_max_left _ _

theorem roundPrice_le (x : ℚ) : _round_price x ≤ 1 - MIN_TICK := by
  unfold _round_price
  apply roundDec_le_of_grid MAX_DECIMALS (1 - MIN_TICK) _ 99
  · norm_num [MIN_TICK, MAX_DECIMALS]
  · exact max_le (by norm_num [MIN_TICK]) (min_le_left _ _)

theorem roundPrice_pos (x : ℚ) : 0 < _round_price x :=
  lt_of_lt_of_le (by norm_num [MIN_TICK]) (roundPrice_ge x)

theorem roundPrice_grid (x : ℚ) : ∃ n : ℤ, _round_price x * 10 ^ MAX_DECIMALS = n := by
  unfold _round_price
  obtain ⟨n, hn⟩ := roundDec_on_grid MAX_DECIMALS (max MIN_TICK (min (1 - MIN_TICK) x))
  refine ⟨n, ?_⟩
  rw [hn]
  field_simp

/-- One tick above a grid price in `[MIN_TICK, 1 - MIN_TICK]` stays weakly above
it after renormalization, and strictly above unless the price sits at the upper
clamp bound. -/
theorem le_roundPrice_add_tick (b : ℚ) (n : ℤ) (hb : b * 10 ^ MAX_DECIMALS = n)
    (h1 : MIN_TICK ≤ b) (h2 : b ≤ 1 - MIN_TICK) :
    b ≤ _round_price (b + MIN_TICK) ∧
      (b < 1 - MIN_TICK → b < _round_price (b + MIN_TICK)) := by
  by_cases hcase : b + MIN_TICK ≤ 1 - MIN_TICK
  · have hclamp : max MIN_TICK (min (1 - MIN_TICK) (b + MIN_TICK)) = b + MIN_TICK := by
      rw [min_eq_right hcase]
      exact max_eq_right (by norm_num [MIN_TICK] at h1 ⊢; linarith)
    have heq : _round_price (b + MIN_TICK) = b + MIN_TICK := by
      unfold _round_price
      rw [hclamp]
      refine roundDec_grid_fix _ _ (n + 1) ?_
      rw [add_mul, hb]
      push_cast
      norm_num [MIN_TICK, MAX_DECIMALS]
    rw [heq]
    constructor
    · norm_num [MIN_TICK]
    · intro _
      norm_num [MIN_TICK]
  · have hb99 : b = 1 - MIN_TICK := by
      push_neg at hcase
      have hn1 : (98 : ℚ) < (n : ℚ) := by
        rw [← hb]
        norm_num [MIN_TICK, MAX_DECIMALS] at hcase ⊢
        linarith
      have hn2 : (n : ℚ) ≤ 99 := by
        rw [← hb]
        norm_num [MIN_TICK, MAX_DECIMALS] at h2 ⊢
        linarith
      have hn99 : n = 99 := by
        have h1i : (98 : ℤ) < n := by exact_mod_cast hn1
        have h2i : n ≤ (99 : ℤ) := by exact_mod_cast hn2
        omega
      have hb2 : b * 10 ^ MAX_DECIMALS = 99 := by
        rw [hb, hn99]
        norm_num
      norm_num [MAX_DECIMALS, MIN_TICK] at hb2 ⊢
      linarith
    have hclamp : max MIN_TICK (min (1 - MIN_TICK) (b + MIN_TICK)) = 1 - MIN_TICK := by
      rw [min_eq_left (by rw [hb99]; norm_num [MIN_TICK])]
      exact max_eq_right (by norm_num [MIN_TICK])
    have heq : _round_price (b + MIN_TICK) = 1 - MIN_TICK := by
      unfold _round_price
      rw [hclamp]
      exact roundDec_grid_fix _ _ 99 (by norm_num [MIN_TICK, MAX_DECIMALS])
    rw [heq, hb99]
    exact ⟨le_refl _, fun h => absurd h (lt_irrefl _)⟩

theorem desired_quotes_fst (mm : SafeSpread) (mid : ℚ) :
    (mm._desired_quotes mid).1 = _round_price (mid - mm.half_width) := by
  simp only [SafeSpread._desired_quotes]
  split <;> rfl

/-- The bid of a desired quote pair lies in `[MIN_TICK, 1 - MIN_TICK]`. -/
theorem desired_quotes_fst_mem (mm : SafeSpread) (mid : ℚ) :
    MIN_TICK ≤ (mm._desired_quotes mid).1 ∧ (mm._desired_quotes mid).1 ≤ 1 - MIN_TICK := by
  rw [desired_quotes_fst]
  exact ⟨roundPrice_ge _, roundPrice_le _⟩

/-! ## Claim theorems -/

/-- C6: for every input, `_round_price` returns a value in
`[MIN_TICK, 1 - MIN_TICK]` with at most `MAX_DECIMALS` fractional digits, even
though it clamps first and rounds second. -/
theorem C6_round_price_normalization (x : ℚ) :
    MIN_TICK ≤ _round_price x ∧ _round_price x ≤ 1 - MIN_TICK ∧
      ∃ n : ℤ, _round_price x = (n : ℚ) / 10 ^ MAX_DECIMALS := by
  refine ⟨roundPrice_ge x, roundPrice_le x, ?_⟩
  unfold _round_price
  exact roundDec_on_grid MAX_DECIMALS _

/-- C10: the bid target that `new_orders` passes as the `price` argument into
`_can_place_bid` and `_bid_size` is the first component of `_desired_quotes`,
a `_round_price` output, hence at least `MIN_TICK` and strictly positive: the
divisions `collateral_balance / price` and `max_notional_per_side / price`
in `_bid_size` never divide by zero. -/
theorem C10_bid_target_positive (mm : SafeSpread) (mid : ℚ) :
    MIN_TICK ≤ (mm._desired_quotes mid).1 ∧ 0 < (mm._desired_quotes mid).1 := by
  rw [desired_quotes_fst]
  exact ⟨roundPrice_ge _, roundPrice_pos _⟩

/-- C8: `cancellable_orders` on an empty order list, or on a list from which no
buy token can be deduced, returns the empty list (a no-op, not a fault). -/
theorem C8_cancellable_degenerate_noop (mm : SafeSpread) (orders : List Order)
    (target_price : ℚ) (h : orders = [] ∨ findBuyToken orders = none) :
    mm.cancellable_orders orders target_price = [] := by
  rcases h with h | h
  · simp [SafeSpread.cancellable_orders, h]
  · unfold SafeSpread.cancellable_orders
    rw [h]
    split <;> rfl

theorem C8_witness :
    (SafeSpread.init []).cancellable_orders [] 0 = [] :=
  C8_cancellable_degenerate_noop (SafeSpread.init []) [] 0 (Or.inl rfl)

/-- C1 counterexample: with the default configuration and midpoint 2, the bid
clamps to `1 - MIN_TICK = 0.99` and the degenerate guard forces the ask onto
the same value, so `ask > bid` fails (the quotes coincide). -/
theorem C1_counterexample :
    ¬ ((SafeSpread.init [])._desired_quotes 2).1 < ((SafeSpread.init [])._desired_quotes 2).2 := by
  have h : (SafeSpread.init [])._desired_quotes 2 = (99 / 100, 99 / 100) := by
    norm_num [SafeSpread._desired_quotes, SafeSpread.half_width, SafeSpread.init,
      cfg_get, cfg_getD, List.lookup, _round_price, roundDec, rndHalfEven, MIN_TICK, MAX_DECIMALS]
  rw [h]
  norm_num

/-- C1 (amended): `_desired_quotes` always returns `ask ≥ bid`, and returns
`ask > bid` whenever the bid is below the upper clamp bound `1 - MIN_TICK`;
at `bid = 1 - MIN_TICK` the degenerate guard can only make the quotes
coincide, not keep them strictly separated. -/
theorem C1_amended_quotes_never_cross (mm : SafeSpread) (mid : ℚ) :
    (mm._desired_quotes mid).1 ≤ (mm._desired_quotes mid).2 ∧
      ((mm._desired_quotes mid).1 < 1 - MIN_TICK →
        (mm._desired_quotes mid).1 < (mm._desired_quotes mid).2) := by
  simp only [SafeSpread._desired_quotes]
  split
  · rename_i hle
    obtain ⟨n, hn⟩ := roundPrice_grid (mid - mm.half_width)
    exact le_roundPrice_add_tick (_round_price (mid - mm.half_width)) n hn
      (roundPrice_ge _) (roundPrice_le _)
  · rename_i hlt
    push_neg at hlt
    exact ⟨le_of_lt hlt, fun _ => hlt⟩

/-- Any order returned by `new_orders` is the ask order or the bid order, with
its gating conditions recorded. -/
theorem mem_new_orders (mm : SafeSpread) (orders : List Order)
    (cb tb tp : ℚ) (bt : Token) (o : Order)
    (ho : o ∈ mm.new_orders orders cb tb tp bt) :
    (o.side = Side.SELL ∧ o.token = bt.complement ∧
      o.price = _round_price (1 - (mm._desired_quotes (mm._mid_with_skew tp bt)).2) ∧
      o.size = mm._ask_size tb bt.complement ∧
      mm._can_place_ask tb = true ∧
      has_near orders Side.SELL (mm._desired_quotes (mm._mid_with_skew tp bt)).2 = false ∧
      max mm.min_place_size MIN_SIZE ≤ o.size) ∨
    (o.side = Side.BUY ∧ o.token = bt ∧
      o.price = (mm._desired_quotes (mm._mid_with_skew tp bt)).1 ∧
      o.size = mm._bid_size cb (mm._desired_quotes (mm._mid_with_skew tp bt)).1 bt ∧
      mm._can_place_bid cb (mm._desired_quotes (mm._mid_with_skew tp bt)).1 bt = true ∧
      has_near orders Side.BUY (mm._desired_quotes (mm._mid_with_skew tp bt)).1 = false ∧
      max mm.min_place_size MIN_SIZE ≤ o.size) := by
  simp only [SafeSpread.new_orders, askPart, bidPart, List.mem_append] at ho
  rcases ho with h | h
  · left
    split at h
    · rename_i hcond
      split at h
      · rename_i hgate
        simp only [List.mem_singleton] at h
        subst h
        simp only [Bool.and_eq_true, Bool.not_eq_true'] at hcond
        exact ⟨rfl, rfl, rfl, rfl, hcond.2, hcond.1, hgate⟩
      · simp at h
    · simp at h
  · right
    split at h
    · rename_i hcond
      split at h
      · rename_i hgate
        simp only [List.mem_singleton] at h
        subst h
        simp only [Bool.and_eq_true, Bool.not_eq_true'] at hcond
        exact ⟨rfl, rfl, rfl, rfl, hcond.2, hcond.1, hgate⟩
      · simp at h
    · simp at h

/-- The bid size never exceeds the inventory headroom by more than the final
rounding increment, apart from the clamp up to `MIN_SIZE`. -/
theorem bid_size_le_headroom (mm : SafeSpread) (cb price : ℚ) (bt : Token) :
    mm._bid_size cb price bt ≤
      max MIN_SIZE (max 0 (mm.max_inventory_per_token - mm.balances bt)) +
        1 / (2 * 10 ^ MAX_DECIMALS) := by
  simp only [SafeSpread._bid_size]
  have hs : min mm.order_size (min (cb / price)
      (min (mm.max_notional_per_side / price)
        (max 0 (mm.max_inventory_per_token - mm.balances bt)))) ≤
      max 0 (mm.max_inventory_per_token - mm.balances bt) :=
    le_trans (min_le_right _ _) (le_trans (min_le_right _ _) (min_le_right _ _))
  have hclamp : _clamp (min mm.order_size (min (cb / price)
      (min (mm.max_notional_per_side / price)
        (max 0 (mm.max_inventory_per_token - mm.balances bt))))) MIN_SIZE (10 ^ 9) ≤
      max MIN_SIZE (max 0 (mm.max_inventory_per_token - mm.balances bt)) := by
    unfold _clamp
    exact max_le_max (le_refl _) (le_trans (min_le_right _ _) hs)
  calc roundDec MAX_DECIMALS (_clamp (min mm.order_size (min (cb / price)
        (min (mm.max_notional_per_side / price)
          (max 0 (mm.max_inventory_per_token - mm.balances bt))))) MIN_SIZE (10 ^ 9)) ≤
      _clamp (min mm.order_size (min (cb / price)
        (min (mm.max_notional_per_side / price)
          (max 0 (mm.max_inventory_per_token - mm.balances bt))))) MIN_SIZE (10 ^ 9) +
        1 / (2 * 10 ^ MAX_DECIMALS) := roundDec_le_add _ _
    _ ≤ max MIN_SIZE (max 0 (mm.max_inventory_per_token - mm.balances bt)) +
        1 / (2 * 10 ^ MAX_DECIMALS) := by linarith

/-- When the bid eligibility gate passed, `_bid_size` never exceeds the
affordable size `cb / price` by more than the final rounding increment. -/
theorem bid_size_le_cash (mm : SafeSpread) (cb price : ℚ) (bt : Token)
    (hp : 0 < price) (hcan : mm._can_place_bid cb price bt = true) :
    mm._bid_size cb price bt ≤ cb / price + 1 / (2 * 10 ^ MAX_DECIMALS) := by
  rw [SafeSpread._can_place_bid] at hcan
  have hcan2 := of_decide_eq_true hcan
  have hcash : price * max mm.min_place_size MIN_SIZE ≤ cb := not_lt.mp hcan2.1
  have hmin : MIN_SIZE ≤ cb / price := by
    rw [le_div_iff₀ hp]
    calc MIN_SIZE * price = price * MIN_SIZE := mul_comm _ _
      _ ≤ price * max mm.min_place_size MIN_SIZE :=
        mul_le_mul_of_nonneg_left (le_max_right _ _) (le_of_lt hp)
      _ ≤ cb := hcash
  simp only [SafeSpread._bid_size]
  have hs : min mm.order_size (min (cb / price)
      (min (mm.max_notional_per_side / price)
        (max 0 (mm.max_inventory_per_token - mm.balances bt)))) ≤ cb / price :=
    le_trans (min_le_right _ _) (min_le_left _ _)
  have hclamp : _clamp (min mm.order_size (min (cb / price)
      (min (mm.max_notional_per_side / price)
        (max 0 (mm.max_inventory_per_token - mm.balances bt))))) MIN_SIZE (10 ^ 9) ≤
      cb / price := by
    unfold _clamp
    exact max_le hmin (le_trans (min_le_right _ _) hs)
  calc roundDec MAX_DECIMALS (_clamp (min mm.order_size (min (cb / price)
        (min (mm.max_notional_per_side / price)
          (max 0 (mm.max_inventory_per_token - mm.balances bt))))) MIN_SIZE (10 ^ 9)) ≤
      _clamp (min mm.order_size (min (cb / price)
        (min (mm.max_notional_per_side / price)
          (max 0 (mm.max_inventory_per_token - mm.balances bt))))) MIN_SIZE (10 ^ 9) +
        1 / (2 * 10 ^ MAX_DECIMALS) := roundDec_le_add _ _
    _ ≤ cb / price + 1 / (2 * 10 ^ MAX_DECIMALS) := by linarith

/-- When the ask eligibility gate passed, `_ask_size` never exceeds the free
token balance by more than the final rounding increment. -/
theorem ask_size_le_balance (mm : SafeSpread) (tb : ℚ) (t : Token)
    (hcan : mm._can_place_ask tb = true) :
    mm._ask_size tb t ≤ tb + 1 / (2 * 10 ^ MAX_DECIMALS) := by
  rw [SafeSpread._can_place_ask] at hcan
  have htb : max mm.min_place_size MIN_SIZE ≤ tb := of_decide_eq_true hcan
  have hmin : MIN_SIZE ≤ tb := le_trans (le_max_right _ _) htb
  simp only [SafeSpread._ask_size]
  have hclamp : ∀ s : ℚ, _clamp s MIN_SIZE tb ≤ tb := by
    intro s
    unfold _clamp
    exact max_le hmin (min_le_left _ _)
  calc roundDec MAX_DECIMALS (_clamp (if mm.max_inventory_per_token < mm.balances t then
          max (min mm.order_size tb) (min (mm.balances t - mm.max_inventory_per_token) tb)
        else min mm.order_size tb) MIN_SIZE tb) ≤
      _clamp (if mm.max_inventory_per_token < mm.balances t then
          max (min mm.order_size tb) (min (mm.balances t - mm.max_inventory_per_token) tb)
        else min mm.order_size tb) MIN_SIZE tb + 1 / (2 * 10 ^ MAX_DECIMALS) :=
      roundDec_le_add _ _
    _ ≤ tb + 1 / (2 * 10 ^ MAX_DECIMALS) := by linarith [hclamp (if mm.max_inventory_per_token < mm.balances t then
          max (min mm.order_size tb) (min (mm.balances t - mm.max_inventory_per_token) tb)
        else min mm.order_size tb)]

/-- When holdings exceed the cap, `_ask_size` is at least the excess (capped by
the free balance) up to the final rounding increment. -/
theorem ask_size_ge_excess (mm : SafeSpread) (tb : ℚ) (t : Token)
    (hover : mm.max_inventory_per_token < mm.balances t) :
    min (mm.balances t - mm.max_inventory_per_token) tb - 1 / (2 * 10 ^ MAX_DECIMALS) ≤
      mm._ask_size tb t := by
  simp only [SafeSpread._ask_size, if_pos hover]
  have hs : min (mm.balances t - mm.max_inventory_per_token) tb ≤
      _clamp (max (min mm.order_size tb)
        (min (mm.balances t - mm.max_inventory_per_token) tb)) MIN_SIZE tb := by
    unfold _clamp
    refine le_trans ?_ (le_max_right _ _)
    exact le_min (min_le_right _ _) (le_max_right _ _)
  calc min (mm.balances t - mm.max_inventory_per_token) tb - 1 / (2 * 10 ^ MAX_DECIMALS) ≤
      _clamp (max (min mm.order_size tb)
        (min (mm.balances t - mm.max_inventory_per_token) tb)) MIN_SIZE tb -
        1 / (2 * 10 ^ MAX_DECIMALS) := by linarith
    _ ≤ roundDec MAX_DECIMALS (_clamp (max (min mm.order_size tb)
        (min (mm.balances t - mm.max_inventory_per_token) tb)) MIN_SIZE tb) :=
      sub_le_roundDec _ _

/-- Projections of the `mm_inv395` fixture. -/
theorem mm_inv395_fields :
    mm_inv395.target_spread = 1 / 50 ∧ mm_inv395.half_spread_override = none ∧
      mm_inv395.order_size = 10 ∧ mm_inv395.max_inventory_per_token = 40 ∧
      mm_inv395.max_notional_per_side = 120 ∧ mm_inv395.skew_per_unit = 1 / 2000 ∧
      mm_inv395.min_place_size = 1 / 10 ∧ mm_inv395.balances Token.A = 395 / 10 := by
  refine ⟨?_, ?_, ?_, ?_, ?_, ?_, ?_, ?_⟩ <;>
    simp [mm_inv395, mm_ts02, bal395, SafeSpread.set_context, SafeSpread.init,
      cfg_getD, cfg_get, List.lookup]

theorem has_near_nil (s : Side) (p : ℚ) : has_near [] s p = false := by
  simp [has_near]

/-- Concrete evaluation shared by the C3 counterexample and witness: holdings
39.5 against cap 40 still produce a BUY of size 15. -/
theorem c3_eval_new_orders :
    mm_inv395.new_orders [] 100 0 (51 / 100) Token.A = [⟨12 / 25, 15, Side.BUY, Token.A⟩] := by
  obtain ⟨hts, hov, hos, hcap, hnot, hskew, hmp, hbalA⟩ := mm_inv395_fields
  have hhw : mm_inv395.half_width = 1 / 100 := by
    rw [SafeSpread.half_width, hov, hts]
    norm_num [MIN_TICK]
  have hmid : mm_inv395._mid_with_skew (51 / 100) Token.A = 49 / 100 := by
    rw [SafeSpread._mid_with_skew, hbalA, hskew]
    rw [round_price_eval_clamped _ (by norm_num [MIN_TICK]) (by norm_num [MIN_TICK])]
    rw [roundDec_eval_low MAX_DECIMALS _ 49 (by norm_num [MAX_DECIMALS])
      (by norm_num [MAX_DECIMALS])]
    norm_num [MAX_DECIMALS]
  have hq : mm_inv395._desired_quotes (49 / 100) = (12 / 25, 1 / 2) := by
    simp only [SafeSpread._desired_quotes, hhw]
    rw [show (49 : ℚ) / 100 - 1 / 100 = 48 / 100 by norm_num,
      show (49 : ℚ) / 100 + 1 / 100 = 50 / 100 by norm_num]
    rw [round_price_eval_grid (48 / 100) 48 (by norm_num [MIN_TICK]) (by norm_num [MIN_TICK])
      (by norm_num [MAX_DECIMALS])]
    rw [round_price_eval_grid (50 / 100) 50 (by norm_num [MIN_TICK]) (by norm_num [MIN_TICK])
      (by norm_num [MAX_DECIMALS])]
    rw [if_neg (by norm_num)]
    norm_num
  have hcpa : mm_inv395._can_place_ask 0 = false := by
    rw [SafeSpread._can_place_ask, hmp]
    norm_num [MIN_SIZE]
  have hcpb : mm_inv395._can_place_bid 100 (12 / 25) Token.A = true := by
    rw [SafeSpread._can_place_bid, hmp, hos, hnot, hcap, hbalA]
    norm_num [MIN_SIZE]
  have hbs : mm_inv395._bid_size 100 (12 / 25) Token.A = 15 := by
    simp only [SafeSpread._bid_size, hbalA, hos, hcap, hnot, _clamp]
    rw [show (100 : ℚ) / (12 / 25) = 625 / 3 by norm_num,
      show (120 : ℚ) / (12 / 25) = 250 by norm_num]
    rw [show max (0 : ℚ) (40 - 395 / 10) = 1 / 2 by norm_num]
    rw [show min (10 : ℚ) (min ((625 : ℚ) / 3) (min (250 : ℚ) (1 / 2))) = 1 / 2 by norm_num]
    rw [show min ((10 : ℚ) ^ 9) (1 / 2) = 1 / 2 by norm_num]
    rw [show max MIN_SIZE ((1 : ℚ) / 2) = 15 by norm_num [MIN_SIZE]]
    exact roundDec_grid_fix MAX_DECIMALS 15 1500 (by norm_num [MAX_DECIMALS])
  simp only [SafeSpread.new_orders, askPart, bidPart, hmid, hq, has_near_nil, hcpa, hcpb,
    hbs, hmp, Token.complement, Bool.not_false, Bool.true_and, Bool.and_false, Bool.and_true,
    MIN_SIZE]
  norm_num

/-- C3 counterexample: with holdings 39.5 and cap 40 (headroom 0.5), a BUY of
size `MIN_SIZE = 15` is still placed, pushing projected holdings to 54.5,
far past the cap: the clamp to `MIN_SIZE` overrides the headroom bound. -/
theorem C3_counterexample :
    mm_inv395.new_orders [] 100 0 (51 / 100) Token.A = [⟨12 / 25, 15, Side.BUY, Token.A⟩] ∧
      mm_inv395.max_inventory_per_token < mm_inv395.balances Token.A + 15 := by
  refine ⟨c3_eval_new_orders, ?_⟩
  obtain ⟨_, _, _, hcap, _, _, _, hbalA⟩ := mm_inv395_fields
  rw [hcap, hbalA]
  norm_num

/-- C3 (amended): reached from `new_orders`, a BUY is only returned when current
holdings of the buy token are strictly below `max_inventory_per_token`, and its
size is at most `max MIN_SIZE headroom` plus the final rounding increment —
the clamp to `MIN_SIZE` and the rounding can push the size past the headroom,
so projected holdings can exceed the cap. -/
theorem C3_amended_inventory_cap (mm : SafeSpread) (orders : List Order)
    (cb tb tp : ℚ) (bt : Token) (o : Order)
    (ho : o ∈ mm.new_orders orders cb tb tp bt) (hbuy : o.side = Side.BUY) :
    mm.balances bt < mm.max_inventory_per_token ∧
      o.size ≤ max MIN_SIZE (max 0 (mm.max_inventory_per_token - mm.balances bt)) +
        1 / (2 * 10 ^ MAX_DECIMALS) := by
  rcases mem_new_orders mm orders cb tb tp bt o ho with h | h
  · rw [h.1] at hbuy
    cases hbuy
  · obtain ⟨_, _, _, hsize, hcan, _, _⟩ := h
    rw [SafeSpread._can_place_bid] at hcan
    have hcan2 := of_decide_eq_true hcan
    refine ⟨hcan2.2.2, ?_⟩
    rw [hsize]
    exact bid_size_le_headroom mm cb _ bt

theorem C3_amended_inventory_cap_witness :
    mm_inv395.balances Token.A < mm_inv395.max_inventory_per_token ∧
      (Order.mk (12 / 25) 15 Side.BUY Token.A).size ≤
        max MIN_SIZE (max 0 (mm_inv395.max_inventory_per_token -
          mm_inv395.balances Token.A)) + 1 / (2 * 10 ^ MAX_DECIMALS) := by
  refine C3_amended_inventory_cap mm_inv395 [] 100 0 (51 / 100) Token.A _ ?_ rfl
  rw [c3_eval_new_orders]
  exact List.mem_singleton_self _

/-- Projections of the `mm_os20` fixture. -/
theorem mm_os20_fields :
    mm_os20.target_spread = 1 / 50 ∧ mm_os20.half_spread_override = none ∧
      mm_os20.order_size = 20 ∧ mm_os20.max_inventory_per_token = 40 ∧
      mm_os20.max_notional_per_side = 120 ∧ mm_os20.skew_per_unit = 1 / 2000 ∧
      mm_os20.min_place_size = 1 / 10 ∧ (∀ t, mm_os20.balances t = 0) := by
  refine ⟨?_, ?_, ?_, ?_, ?_, ?_, ?_, fun t => ?_⟩ <;>
    simp [mm_os20, SafeSpread.init, cfg_getD, cfg_get, List.lookup]

theorem mm_os20_half_width : mm_os20.half_width = 1 / 100 := by
  obtain ⟨hts, hov, _, _, _, _, _, _⟩ := mm_os20_fields
  rw [SafeSpread.half_width, hov, hts]
  norm_num [MIN_TICK]

theorem mm_os20_mid_51 (t : Token) : mm_os20._mid_with_skew (51 / 100) t = 51 / 100 := by
  obtain ⟨_, _, _, _, _, hskew, _, hbal⟩ := mm_os20_fields
  rw [SafeSpread._mid_with_skew, hbal, hskew]
  rw [show (51 : ℚ) / 100 - 0 * (1 / 2000) = 51 / 100 by norm_num]
  exact round_price_eval_grid (51 / 100) 51 (by norm_num [MIN_TICK]) (by norm_num [MIN_TICK])
    (by norm_num [MAX_DECIMALS])

theorem mm_os20_quotes_51 : mm_os20._desired_quotes (51 / 100) = (1 / 2, 13 / 25) := by
  simp only [SafeSpread._desired_quotes, mm_os20_half_width]
  rw [show (51 : ℚ) / 100 - 1 / 100 = 50 / 100 by norm_num,
    show (51 : ℚ) / 100 + 1 / 100 = 52 / 100 by norm_num]
  rw [round_price_eval_grid (50 / 100) 50 (by norm_num [MIN_TICK]) (by norm_num [MIN_TICK])
    (by norm_num [MAX_DECIMALS])]
  rw [round_price_eval_grid (52 / 100) 52 (by norm_num [MIN_TICK]) (by norm_num [MIN_TICK])
    (by norm_num [MAX_DECIMALS])]
  rw [if_neg (by norm_num)]
  norm_num

/-- Concrete evaluation shared by the C5 counterexample and witness: with free
complement balance 15.006 the returned SELL has size 15.01. -/
theorem c5_eval_new_orders :
    mm_os20.new_orders [] 0 (15006 / 1000) (51 / 100) Token.A =
      [⟨12 / 25, 1501 / 100, Side.SELL, Token.B⟩] := by
  obtain ⟨hts, hov, hos, hcap, hnot, hskew, hmp, hbal⟩ := mm_os20_fields
  have hcpa : mm_os20._can_place_ask (15006 / 1000) = true := by
    rw [SafeSpread._can_place_ask, hmp]
    norm_num [MIN_SIZE]
  have hcpb : mm_os20._can_place_bid 0 (1 / 2) Token.A = false := by
    rw [SafeSpread._can_place_bid, hmp]
    norm_num [MIN_SIZE]
  have hsp : _round_price (1 - 13 / 25) = 12 / 25 := by
    rw [show (1 : ℚ) - 13 / 25 = 12 / 25 by norm_num]
    exact round_price_eval_grid (12 / 25) 48 (by norm_num [MIN_TICK]) (by norm_num [MIN_TICK])
      (by norm_num [MAX_DECIMALS])
  have hasz : mm_os20._ask_size (15006 / 1000) Token.B = 1501 / 100 := by
    simp only [SafeSpread._ask_size, hbal, hos, hcap, _clamp]
    rw [if_neg (by norm_num)]
    rw [show min (20 : ℚ) (15006 / 1000) = 15006 / 1000 by norm_num]
    rw [show min ((15006 : ℚ) / 1000) (15006 / 1000) = 15006 / 1000 by norm_num]
    rw [show max MIN_SIZE ((15006 : ℚ) / 1000) = 15006 / 1000 by norm_num [MIN_SIZE]]
    rw [roundDec_eval_high MAX_DECIMALS _ 1500 (by norm_num [MAX_DECIMALS])
      (by norm_num [MAX_DECIMALS])]
    norm_num [MAX_DECIMALS]
  simp only [SafeSpread.new_orders, askPart, bidPart, mm_os20_mid_51, mm_os20_quotes_51,
    has_near_nil, Token.complement, hcpa, hcpb, hasz, hsp, hmp,
    Bool.not_false, Bool.true_and, Bool.and_false, Bool.and_true, MIN_SIZE]
  norm_num

/-- C5 counterexample: with free complement balance 15.006, the SELL size is
clamped to the balance and then rounded up to 15.01, exceeding the free
balance — "size at most the free balance" fails by a rounding increment. -/
theorem C5_counterexample :
    mm_os20.new_orders [] 0 (15006 / 1000) (51 / 100) Token.A =
      [⟨12 / 25, 1501 / 100, Side.SELL, Token.B⟩] ∧
      ¬ ((1501 : ℚ) / 100 ≤ 15006 / 1000) := by
  refine ⟨c5_eval_new_orders, ?_⟩
  norm_num

/-- C5 (amended): a SELL is returned by `new_orders` only when the free
complement-token balance is at least `max(min_place_size, MIN_SIZE)`; its size
is at least that bound, at most the free balance plus the final rounding
increment, and, when holdings of the complement token exceed the cap, at least
`min(holdings − cap, free balance)` minus the rounding increment. -/
theorem C5_amended_ask_sizing (mm : SafeSpread) (orders : List Order)
    (cb tb tp : ℚ) (bt : Token) (o : Order)
    (ho : o ∈ mm.new_orders orders cb tb tp bt) (hsell : o.side = Side.SELL) :
    max mm.min_place_size MIN_SIZE ≤ tb ∧
      max mm.min_place_size MIN_SIZE ≤ o.size ∧
      o.size ≤ tb + 1 / (2 * 10 ^ MAX_DECIMALS) ∧
      (mm.max_inventory_per_token < mm.balances bt.complement →
        min (mm.balances bt.complement - mm.max_inventory_per_token) tb -
          1 / (2 * 10 ^ MAX_DECIMALS) ≤ o.size) := by
  rcases mem_new_orders mm orders cb tb tp bt o ho with h | h
  · obtain ⟨_, _, _, hsize, hcan, _, hgate⟩ := h
    have htb : max mm.min_place_size MIN_SIZE ≤ tb := by
      rw [SafeSpread._can_place_ask] at hcan
      exact of_decide_eq_true hcan
    refine ⟨htb, hgate, ?_, ?_⟩
    · rw [hsize]
      exact ask_size_le_balance mm tb _ hcan
    · intro hover
      rw [hsize]
      exact ask_size_ge_excess mm tb _ hover
  · rw [h.1] at hsell
    cases hsell

theorem C5_amended_ask_sizing_witness :
    max mm_os20.min_place_size MIN_SIZE ≤ (15006 : ℚ) / 1000 ∧
      max mm_os20.min_place_size MIN_SIZE ≤ (Order.mk (12 / 25) (1501 / 100) Side.SELL Token.B).size ∧
      (Order.mk (12 / 25) (1501 / 100) Side.SELL Token.B).size ≤
        (15006 : ℚ) / 1000 + 1 / (2 * 10 ^ MAX_DECIMALS) ∧
      (mm_os20.max_inventory_per_token < mm_os20.balances Token.A.complement →
        min (mm_os20.balances Token.A.complement - mm_os20.max_inventory_per_token)
          ((15006 : ℚ) / 1000) - 1 / (2 * 10 ^ MAX_DECIMALS) ≤
          (Order.mk (12 / 25) (1501 / 100) Side.SELL Token.B).size) := by
  refine C5_amended_ask_sizing mm_os20 [] 0 (15006 / 1000) (51 / 100) Token.A _ ?_ rfl
  rw [c5_eval_new_orders]
  exact List.mem_singleton_self _

/-- An existing order within one tick of the side target makes `has_near` true. -/
theorem has_near_of_exists (orders : List Order) (s : Side) (p : ℚ)
    (h : ∃ o ∈ orders, o.side = s ∧ |effective_price o - p| ≤ MIN_TICK) :
    has_near orders s p = true := by
  rcases h with ⟨o, ho, hs, hle⟩
  simp only [has_near, List.any_eq_true]
  refine ⟨o, ho, ?_⟩
  simp [hs, hle]

/-- C7: if some existing order on a side has effective price (identity for BUY,
`round(1 - price)` for SELL) within one tick of that side's target, then
`new_orders` places no new order on that side. -/
theorem C7_near_duplicate_suppression (mm : SafeSpread) (orders : List Order)
    (cb tb tp : ℚ) (bt : Token) :
    ((∃ o ∈ orders, o.side = Side.BUY ∧
        |effective_price o - (mm._desired_quotes (mm._mid_with_skew tp bt)).1| ≤ MIN_TICK) →
      ∀ o ∈ mm.new_orders orders cb tb tp bt, o.side ≠ Side.BUY) ∧
    ((∃ o ∈ orders, o.side = Side.SELL ∧
        |effective_price o - (mm._desired_quotes (mm._mid_with_skew tp bt)).2| ≤ MIN_TICK) →
      ∀ o ∈ mm.new_orders orders cb tb tp bt, o.side ≠ Side.SELL) := by
  constructor
  · intro hex o ho hside
    rcases mem_new_orders mm orders cb tb tp bt o ho with h | h
    · exact Side.noConfusion (h.1.symm.trans hside)
    · obtain ⟨_, _, _, _, _, hnear, _⟩ := h
      rw [has_near_of_exists orders Side.BUY _ hex] at hnear
      exact Bool.noConfusion hnear
  · intro hex o ho hside
    rcases mem_new_orders mm orders cb tb tp bt o ho with h | h
    · obtain ⟨_, _, _, _, _, hnear, _⟩ := h
      rw [has_near_of_exists orders Side.SELL _ hex] at hnear
      exact Bool.noConfusion hnear
    · exact Side.noConfusion (h.1.symm.trans hside)

/-- Projections of the `mm_ts02` fixture. -/
theorem mm_ts02_fields :
    mm_ts02.target_spread = 1 / 50 ∧ mm_ts02.half_spread_override = none ∧
      mm_ts02.order_size = 10 ∧ mm_ts02.max_inventory_per_token = 40 ∧
      mm_ts02.max_notional_per_side = 120 ∧ mm_ts02.skew_per_unit = 1 / 2000 ∧
      mm_ts02.min_place_size = 1 / 10 ∧ (∀ t, mm_ts02.balances t = 0) := by
  refine ⟨?_, ?_, ?_, ?_, ?_, ?_, ?_, fun t => ?_⟩ <;>
    simp [mm_ts02, SafeSpread.init, cfg_getD, cfg_get, List.lookup]

theorem mm_ts02_mid_49 (t : Token) : mm_ts02._mid_with_skew (49 / 100) t = 49 / 100 := by
  obtain ⟨_, _, _, _, _, hskew, _, hbal⟩ := mm_ts02_fields
  rw [SafeSpread._mid_with_skew, hbal, hskew]
  rw [show (49 : ℚ) / 100 - 0 * (1 / 2000) = 49 / 100 by norm_num]
  exact round_price_eval_grid (49 / 100) 49 (by norm_num [MIN_TICK]) (by norm_num [MIN_TICK])
    (by norm_num [MAX_DECIMALS])

theorem mm_ts02_quotes_49 : mm_ts02._desired_quotes (49 / 100) = (12 / 25, 1 / 2) := by
  obtain ⟨hts, hov, _, _, _, _, _, _⟩ := mm_ts02_fields
  have hhw : mm_ts02.half_width = 1 / 100 := by
    rw [SafeSpread.half_width, hov, hts]
    norm_num [MIN_TICK]
  simp only [SafeSpread._desired_quotes, hhw]
  rw [show (49 : ℚ) / 100 - 1 / 100 = 48 / 100 by norm_num,
    show (49 : ℚ) / 100 + 1 / 100 = 50 / 100 by norm_num]
  rw [round_price_eval_grid (48 / 100) 48 (by norm_num [MIN_TICK]) (by norm_num [MIN_TICK])
    (by norm_num [MAX_DECIMALS])]
  rw [round_price_eval_grid (50 / 100) 50 (by norm_num [MIN_TICK]) (by norm_num [MIN_TICK])
    (by norm_num [MAX_DECIMALS])]
  rw [if_neg (by norm_num)]
  norm_num

theorem C7_near_duplicate_suppression_witness :
    (∃ o ∈ [Order.mk (479 / 1000) 20 Side.BUY Token.A], o.side = Side.BUY ∧
        |effective_price o -
          (mm_ts02._desired_quotes (mm_ts02._mid_with_skew (49 / 100) Token.A)).1| ≤ MIN_TICK) ∧
      ∀ o ∈ mm_ts02.new_orders [Order.mk (479 / 1000) 20 Side.BUY Token.A] 100 0 (49 / 100)
          Token.A, o.side ≠ Side.BUY := by
  have hex : ∃ o ∈ [Order.mk (479 / 1000) 20 Side.BUY Token.A], o.side = Side.BUY ∧
      |effective_price o -
        (mm_ts02._desired_quotes (mm_ts02._mid_with_skew (49 / 100) Token.A)).1| ≤ MIN_TICK := by
    refine ⟨Order.mk (479 / 1000) 20 Side.BUY Token.A, List.mem_singleton_self _, rfl, ?_⟩
    rw [mm_ts02_mid_49, mm_ts02_quotes_49]
    simp only [effective_price]
    rw [show (479 : ℚ) / 1000 - 12 / 25 = -(1 / 1000) by norm_num, abs_neg,
      abs_of_pos (show (0 : ℚ) < 1 / 1000 by norm_num)]
    norm_num [MIN_TICK]
  exact ⟨hex, (C7_near_duplicate_suppression mm_ts02 _ 100 0 (49 / 100) Token.A).1 hex⟩

/-- Configuration lookup only depends on the looked-up keys. -/
theorem cfg_get_congr (l1 l2 : List (String × ℚ)) (keys : List String)
    (h : ∀ k ∈ keys, l1.lookup k = l2.lookup k) :
    cfg_get l1 keys = cfg_get l2 keys := by
  induction keys with
  | nil => rfl
  | cons k ks ih =>
    simp only [cfg_get]
    rw [h k (List.mem_cons_self k ks)]
    cases hl : List.lookup k l2 with
    | none => exact ih (fun k2 hk2 => h k2 (List.mem_cons_of_mem _ hk2))
    | some v => rfl

/-- Two configurations that agree on every recognized key produce the same
engine: unrecognized keys have no effect. -/
theorem init_congr (l1 l2 : List (String × ℚ))
    (h : ∀ k ∈ recognizedKeys, l1.lookup k = l2.lookup k) :
    SafeSpread.init l1 = SafeSpread.init l2 := by
  have hc : ∀ keys : List String, (∀ k ∈ keys, k ∈ recognizedKeys) →
      cfg_get l1 keys = cfg_get l2 keys :=
    fun keys hsub => cfg_get_congr l1 l2 keys (fun k hk => h k (hsub k hk))
  unfold SafeSpread.init cfg_getD
  rw [hc ["target_spread", "targetSpread"] (by simp [recognizedKeys]),
    hc ["half_spread_override", "halfSpreadOverride"] (by simp [recognizedKeys]),
    hc ["order_size", "orderSize"] (by simp [recognizedKeys]),
    hc ["max_bids", "maxBids"] (by simp [recognizedKeys]),
    hc ["max_asks", "maxAsks"] (by simp [recognizedKeys]),
    hc ["cancel_if_away_by", "cancelIfAwayBy"] (by simp [recognizedKeys]),
    hc ["max_inventory_per_token", "maxInventoryPerToken"] (by simp [recognizedKeys]),
    hc ["max_notional_per_side", "maxNotionalPerSide"] (by simp [recognizedKeys]),
    hc ["skew_per_unit", "skewPerUnit"] (by simp [recognizedKeys]),
    hc ["min_place_size", "minPlaceSize"] (by simp [recognizedKeys])]

/-- C9: `SafeSpread.init` resolves each parameter by its snake_case name first
and its camelCase name second (first match wins), binds the documented default
when both are absent, and ignores unrecognized keys. -/
theorem C9_config_resolution (cfg : List (String × ℚ)) :
      ((∀ v, cfg.lookup "target_spread" = some v → (SafeSpread.init cfg).target_spread = v) ∧
        (cfg.lookup "target_spread" = none → ∀ v, cfg.lookup "targetSpread" = some v →
          (SafeSpread.init cfg).target_spread = v) ∧
        (cfg.lookup "target_spread" = none → cfg.lookup "targetSpread" = none →
          (SafeSpread.init cfg).target_spread = 3 / 100)) ∧
      ((∀ v, cfg.lookup "half_spread_override" = some v →
          (SafeSpread.init cfg).half_spread_override = some v) ∧
        (cfg.lookup "half_spread_override" = none → ∀ v,
          cfg.lookup "halfSpreadOverride" = some v →
          (SafeSpread.init cfg).half_spread_override = some v) ∧
        (cfg.lookup "half_spread_override" = none →
          cfg.lookup "halfSpreadOverride" = none →
          (SafeSpread.init cfg).half_spread_override = none)) ∧
      ((∀ v, cfg.lookup "order_size" = some v → (SafeSpread.init cfg).order_size = v) ∧
        (cfg.lookup "order_size" = none → ∀ v, cfg.lookup "orderSize" = some v →
          (SafeSpread.init cfg).order_size = v) ∧
        (cfg.lookup "order_size" = none → cfg.lookup "orderSize" = none →
          (SafeSpread.init cfg).order_size = 10)) ∧
      ((∀ v, cfg.lookup "max_bids" = some v → (SafeSpread.init cfg).max_bids = pyInt v) ∧
        (cfg.lookup "max_bids" = none → ∀ v, cfg.lookup "maxBids" = some v →
          (SafeSpread.init cfg).max_bids = pyInt v) ∧
        (cfg.lookup "max_bids" = none → cfg.lookup "maxBids" = none →
          (SafeSpread.init cfg).max_bids = 2)) ∧
      ((∀ v, cfg.lookup "max_asks" = some v → (SafeSpread.init cfg).max_asks = pyInt v) ∧
        (cfg.lookup "max_asks" = none → ∀ v, cfg.lookup "maxAsks" = some v →
          (SafeSpread.init cfg).max_asks = pyInt v) ∧
        (cfg.lookup "max_asks" = none → cfg.lookup "maxAsks" = none →
          (SafeSpread.init cfg).max_asks = 2)) ∧
      ((∀ v, cfg.lookup "cancel_if_away_by" = some v → (SafeSpread.init cfg).cancel_if_away_by = v) ∧
        (cfg.lookup "cancel_if_away_by" = none → ∀ v, cfg.lookup "cancelIfAwayBy" = some v →
          (SafeSpread.init cfg).cancel_if_away_by = v) ∧
        (cfg.lookup "cancel_if_away_by" = none → cfg.lookup "cancelIfAwayBy" = none →
          (SafeSpread.init cfg).cancel_if_away_by = 1 / 50)) ∧
      ((∀ v, cfg.lookup "max_inventory_per_token" = some v → (SafeSpread.init cfg).max_inventory_per_token = v) ∧
        (cfg.lookup "max_inventory_per_token" = none → ∀ v, cfg.lookup "maxInventoryPerToken" = some v →
          (SafeSpread.init cfg).max_inventory_per_token = v) ∧
        (cfg.lookup "max_inventory_per_token" = none → cfg.lookup "maxInventoryPerToken" = none →
          (SafeSpread.init cfg).max_inventory_per_token = 40)) ∧
      ((∀ v, cfg.lookup "max_notional_per_side" = some v → (SafeSpread.init cfg).max_notional_per_side = v) ∧
        (cfg.lookup "max_notional_per_side" = none → ∀ v, cfg.lookup "maxNotionalPerSide" = some v →
          (SafeSpread.init cfg).max_notional_per_side = v) ∧
        (cfg.lookup "max_notional_per_side" = none → cfg.lookup "maxNotionalPerSide" = none →
          (SafeSpread.init cfg).max_notional_per_side = 120)) ∧
      ((∀ v, cfg.lookup "skew_per_unit" = some v → (SafeSpread.init cfg).skew_per_unit = v) ∧
        (cfg.lookup "skew_per_unit" = none → ∀ v, cfg.lookup "skewPerUnit" = some v →
          (SafeSpread.init cfg).skew_per_unit = v) ∧
        (cfg.lookup "skew_per_unit" = none → cfg.lookup "skewPerUnit" = none →
          (SafeSpread.init cfg).skew_per_unit = 1 / 2000)) ∧
      ((∀ v, cfg.lookup "min_place_size" = some v → (SafeSpread.init cfg).min_place_size = v) ∧
        (cfg.lookup "min_place_size" = none → ∀ v, cfg.lookup "minPlaceSize" = some v →
          (SafeSpread.init cfg).min_place_size = v) ∧
        (cfg.lookup "min_place_size" = none → cfg.lookup "minPlaceSize" = none →
          (SafeSpread.init cfg).min_place_size = 1 / 10)) ∧
      (∀ cfg2 : List (String × ℚ),
        (∀ k ∈ recognizedKeys, cfg.lookup k = cfg2.lookup k) →
        SafeSpread.init cfg = SafeSpread.init cfg2) :=
  ⟨⟨fun v hv => by simp [SafeSpread.init, cfg_getD, cfg_get, hv],
      fun hs v hv => by simp [SafeSpread.init, cfg_getD, cfg_get, hs, hv],
      fun hs hc => by
        simp [SafeSpread.init, cfg_getD, cfg_get, hs, hc]
        try norm_num [pyInt]⟩,
    ⟨fun v hv => by simp [SafeSpread.init, cfg_getD, cfg_get, hv],
      fun hs v hv => by simp [SafeSpread.init, cfg_getD, cfg_get, hs, hv],
      fun hs hc => by
        simp [SafeSpread.init, cfg_getD, cfg_get, hs, hc]
        try norm_num [pyInt]⟩,
    ⟨fun v hv => by simp [SafeSpread.init, cfg_getD, cfg_get, hv],
      fun hs v hv => by simp [SafeSpread.init, cfg_getD, cfg_get, hs, hv],
      fun hs hc => by
        simp [SafeSpread.init, cfg_getD, cfg_get, hs, hc]
        try norm_num [pyInt]⟩,
    ⟨fun v hv => by simp [SafeSpread.init, cfg_getD, cfg_get, hv],
      fun hs v hv => by simp [SafeSpread.init, cfg_getD, cfg_get, hs, hv],
      fun hs hc => by
        simp [SafeSpread.init, cfg_getD, cfg_get, hs, hc]
        try norm_num [pyInt]⟩,
    ⟨fun v hv => by simp [SafeSpread.init, cfg_getD, cfg_get, hv],
      fun hs v hv => by simp [SafeSpread.init, cfg_getD, cfg_get, hs, hv],
      fun hs hc => by
        simp [SafeSpread.init, cfg_getD, cfg_get, hs, hc]
        try norm_num [pyInt]⟩,
    ⟨fun v hv => by simp [SafeSpread.init, cfg_getD, cfg_get, hv],
      fun hs v hv => by simp [SafeSpread.init, cfg_getD, cfg_get, hs, hv],
      fun hs hc => by
        simp [SafeSpread.init, cfg_getD, cfg_get, hs, hc]
        try norm_num [pyInt]⟩,
    ⟨fun v hv => by simp [SafeSpread.init, cfg_getD, cfg_get, hv],
      fun hs v hv => by simp [SafeSpread.init, cfg_getD, cfg_get, hs, hv],
      fun hs hc => by
        simp [SafeSpread.init, cfg_getD, cfg_get, hs, hc]
        try norm_num [pyInt]⟩,
    ⟨fun v hv => by simp [SafeSpread.init, cfg_getD, cfg_get, hv],
      fun hs v hv => by simp [SafeSpread.init, cfg_getD, cfg_get, hs, hv],
      fun hs hc => by
        simp [SafeSpread.init, cfg_getD, cfg_get, hs, hc]
        try norm_num [pyInt]⟩,
    ⟨fun v hv => by simp [SafeSpread.init, cfg_getD, cfg_get, hv],
      fun hs v hv => by simp [SafeSpread.init, cfg_getD, cfg_get, hs, hv],
      fun hs hc => by
        simp [SafeSpread.init, cfg_getD, cfg_get, hs, hc]
        try norm_num [pyInt]⟩,
    ⟨fun v hv => by simp [SafeSpread.init, cfg_getD, cfg_get, hv],
      fun hs v hv => by simp [SafeSpread.init, cfg_getD, cfg_get, hs, hv],
      fun hs hc => by
        simp [SafeSpread.init, cfg_getD, cfg_get, hs, hc]
        try norm_num [pyInt]⟩,
    fun cfg2 h => init_congr cfg cfg2 h⟩

theorem C9_config_resolution_witness :
    (SafeSpread.init [("order_size", (12 : ℚ)), ("maxBids", 3), ("bogus", 5)]).order_size = 12 ∧
      (SafeSpread.init [("order_size", (12 : ℚ)), ("maxBids", 3), ("bogus", 5)]).max_bids =
        pyInt 3 ∧
      (SafeSpread.init [("order_size", (12 : ℚ)), ("maxBids", 3), ("bogus", 5)]).target_spread =
        3 / 100 ∧
      SafeSpread.init [("order_size", (12 : ℚ)), ("maxBids", 3), ("bogus", 5)] =
        SafeSpread.init [("maxBids", (3 : ℚ)), ("order_size", 12)] := by
  obtain ⟨hts, hov, hos, hmb, hma, hciab, hinv, hnot, hsk, hmps, hcong⟩ :=
    C9_config_resolution [("order_size", (12 : ℚ)), ("maxBids", 3), ("bogus", 5)]
  refine ⟨hos.1 12 (by simp [List.lookup]), hmb.2.1 (by simp [List.lookup]) 3 (by simp [List.lookup]),
    hts.2.2 (by simp [List.lookup]) (by simp [List.lookup]), hcong _ ?_⟩
  intro k hk
  fin_cases hk <;> simp [List.lookup]

/-- In the two-sided model a buy token is deducible from any nonempty order
list, so `findBuyToken` returns `none` only on the empty list. -/
theorem findBuyToken_none (orders : List Order) (h : findBuyToken orders = none) :
    orders = [] := by
  cases orders with
  | nil => rfl
  | cons o os =>
    exfalso
    unfold findBuyToken at h
    cases h1 : (o :: os).find? (fun x => decide (x.side = Side.BUY)) with
    | some a => rw [h1] at h; exact Option.noConfusion h
    | none =>
      rw [h1] at h
      have hside : o.side = Side.SELL := by
        have h2 := List.find?_eq_none.mp h1 o (List.mem_cons_self o os)
        simp only [decide_eq_true_eq] at h2
        cases ho : o.side
        · exact absurd ho h2
        · rfl
      have h3 : (o :: os).find? (fun x => decide (x.side = Side.SELL)) = some o := by
        apply List.find?_cons_of_pos
        simp [hside]
      rw [h3] at h
      exact Option.noConfusion h

/-- Unfolding of `cancellable_orders` when the buy token is deduced. -/
theorem cancellable_eq (mm : SafeSpread) (orders : List Order) (tp : ℚ) (bt : Token)
    (h : findBuyToken orders = some bt) :
    mm.cancellable_orders orders tp =
      farAways mm (mm._desired_quotes (mm._mid_with_skew tp bt)) orders ++
        excess mm.max_bids (sortClose (mm._desired_quotes (mm._mid_with_skew tp bt))
          (keepSide Side.BUY
            (farAways mm (mm._desired_quotes (mm._mid_with_skew tp bt)) orders) orders)) ++
        excess mm.max_asks (sortClose (mm._desired_quotes (mm._mid_with_skew tp bt))
          (keepSide Side.SELL
            (farAways mm (mm._desired_quotes (mm._mid_with_skew tp bt)) orders) orders)) := by
  have hne : orders.isEmpty = false := by
    cases orders with
    | nil => simp [findBuyToken, List.find?] at h
    | cons a l => rfl
  simp [SafeSpread.cancellable_orders, hne, h]

/-- The excess slice is always a suffix of the sorted keep-list. -/
theorem excess_eq_drop (n : ℤ) (l : List Order) : ∃ m : ℕ, excess n l = l.drop m := by
  unfold excess pySliceFrom
  split
  · split
    · exact ⟨n.toNat, rfl⟩
    · exact ⟨((l.length : ℤ) + n).toNat, rfl⟩
  · exact ⟨l.length, (List.drop_length l).symm⟩

/-- Elements of an excess slice come from the keep-list of their side. -/
theorem mem_excess (n : ℤ) (q : ℚ × ℚ) (s : Side) (far orders : List Order) (o : Order)
    (ho : o ∈ excess n (sortClose q (keepSide s far orders))) :
    o ∈ orders ∧ o.side = s ∧ o ∉ far := by
  obtain ⟨m, hm⟩ := excess_eq_drop n (sortClose q (keepSide s far orders))
  rw [hm] at ho
  have h1 : o ∈ sortClose q (keepSide s far orders) := List.drop_subset _ _ ho
  have h2 : o ∈ keepSide s far orders := by
    unfold sortClose at h1
    rw [List.mem_mergeSort] at h1
    exact h1
  unfold keepSide at h2
  rw [List.mem_filter] at h2
  obtain ⟨h3, h4⟩ := h2
  simp only [decide_eq_true_eq] at h4
  exact ⟨h3, h4.1, h4.2⟩

/-- The sorted keep-list is pairwise ordered by distance to target. -/
theorem sortClose_pairwise (q : ℚ × ℚ) (l : List Order) :
    (sortClose q l).Pairwise
      (fun a b => decide (closenessTo q a ≤ closenessTo q b) = true) := by
  unfold sortClose
  apply List.sorted_mergeSort
  · intro a b c hab hbc
    simp only [decide_eq_true_eq] at *
    exact le_trans hab hbc
  · intro a b
    simp only [Bool.or_eq_true, decide_eq_true_eq]
    exact le_total _ _

/-- Counting bound: the orders of side `s` surviving the cancellation list `C`
number at most `n` when `C` contains the far list and the excess slice. -/
theorem survivors_le (orders C F : List Order) (s : Side) (q : ℚ × ℚ) (n : ℤ)
    (hn : 0 ≤ n)
    (hFC : ∀ o, o ∈ F → o ∈ C)
    (hEC : ∀ o, o ∈ excess n (sortClose q (keepSide s F orders)) → o ∈ C) :
    ((orders.filter (fun o => decide (o.side = s ∧ o ∉ C))).length : ℤ) ≤ n := by
  have hS : orders.filter (fun o => decide (o.side = s ∧ o ∉ C)) =
      (keepSide s F orders).filter (fun o => decide (o ∉ C)) := by
    unfold keepSide
    rw [List.filter_filter]
    apply List.filter_congr
    intro o ho
    by_cases h1 : o.side = s
    · by_cases h2 : o ∈ C
      · simp [h1, h2]
      · have h3 : o ∉ F := fun hf => h2 (hFC o hf)
        simp [h1, h2, h3]
    · simp [h1]
  rw [hS]
  have hlen : ((keepSide s F orders).filter (fun o => decide (o ∉ C))).length =
      ((sortClose q (keepSide s F orders)).filter (fun o => decide (o ∉ C))).length := by
    unfold sortClose
    exact (((List.mergeSort_perm (keepSide s F orders) _).filter _).length_eq).symm
  rw [hlen]
  set SB := sortClose q (keepSide s F orders) with hSB
  by_cases hlt : n < (SB.length : ℤ)
  · have hE : excess n SB = SB.drop n.toNat := by
      unfold excess pySliceFrom
      rw [if_pos hlt, if_pos hn]
    have hnil : (SB.drop n.toNat).filter (fun o => decide (o ∉ C)) = [] := by
      rw [List.filter_eq_nil_iff]
      intro a ha
      have haC : a ∈ C := hEC a (by rw [hE]; exact ha)
      simp [haC]
    have hbound : ((SB.filter (fun o => decide (o ∉ C))).length) ≤ n.toNat := by
      conv_lhs => rw [← List.take_append_drop n.toNat SB]
      rw [List.filter_append, hnil, List.append_nil]
      calc ((SB.take n.toNat).filter (fun o => decide (o ∉ C))).length
          ≤ (SB.take n.toNat).length := List.length_filter_le _ _
        _ ≤ n.toNat := List.length_take_le _ _
    calc ((SB.filter (fun o => decide (o ∉ C))).length : ℤ) ≤ (n.toNat : ℤ) := by
          exact_mod_cast hbound
      _ = n := Int.toNat_of_nonneg hn
  · push_neg at hlt
    calc ((SB.filter (fun o => decide (o ∉ C))).length : ℤ) ≤ (SB.length : ℤ) := by
          exact_mod_cast List.length_filter_le _ _
      _ ≤ n := hlt

/-- A surviving order of side `s` is at least as close to target as any order
cancelled by the excess slice of that side. -/
theorem survivors_closest (orders C F : List Order) (s : Side) (q : ℚ × ℚ) (n : ℤ)
    (hEC : ∀ o, o ∈ excess n (sortClose q (keepSide s F orders)) → o ∈ C)
    (x e : Order)
    (hx : x ∈ orders) (hxs : x.side = s) (hxC : x ∉ C) (hxF : x ∉ F)
    (he : e ∈ excess n (sortClose q (keepSide s F orders))) :
    closenessTo q x ≤ closenessTo q e := by
  obtain ⟨m, hm⟩ := excess_eq_drop n (sortClose q (keepSide s F orders))
  set SB := sortClose q (keepSide s F orders) with hSB
  rw [hm] at he
  have hxK : x ∈ keepSide s F orders := by
    unfold keepSide
    rw [List.mem_filter]
    exact ⟨hx, by simp [hxs, hxF]⟩
  have hxSB : x ∈ SB := by
    rw [hSB]
    unfold sortClose
    rw [List.mem_mergeSort]
    exact hxK
  have hxdrop : x ∉ SB.drop m := fun hd => hxC (hEC x (by rw [hm]; exact hd))
  have hxtake : x ∈ SB.take m := by
    have hsp : x ∈ SB.take m ++ SB.drop m := by
      rw [List.take_append_drop m SB]
      exact hxSB
    rcases List.mem_append.mp hsp with h | h
    · exact h
    · exact absurd h hxdrop
  have hp := sortClose_pairwise q (keepSide s F orders)
  rw [← hSB] at hp
  rw [← List.take_append_drop m SB] at hp
  have hcross := (List.pairwise_append.mp hp).2.2 x hxtake e he
  exact of_decide_eq_true hcross

/-- C4: after removing the cancellations, at most `max_bids` BUYs and
`max_asks` SELLs survive on a pair, and every survivor is at least as close
(by effective-price distance) to its side's target as every non-far order
cancelled as excess. -/
theorem C4_count_caps_and_closest (mm : SafeSpread) (orders : List Order) (tp : ℚ)
    (hb : 0 ≤ mm.max_bids) (ha : 0 ≤ mm.max_asks) :
    ((orders.filter (fun o => decide (o.side = Side.BUY ∧
        o ∉ mm.cancellable_orders orders tp))).length : ℤ) ≤ mm.max_bids ∧
      ((orders.filter (fun o => decide (o.side = Side.SELL ∧
        o ∉ mm.cancellable_orders orders tp))).length : ℤ) ≤ mm.max_asks ∧
      ∀ bt, findBuyToken orders = some bt →
        ∀ x ∈ orders, ∀ e ∈ orders, x.side = e.side →
          x ∉ mm.cancellable_orders orders tp →
          ¬ mm.cancel_if_away_by <
            closenessTo (mm._desired_quotes (mm._mid_with_skew tp bt)) e →
          e ∈ mm.cancellable_orders orders tp →
          closenessTo (mm._desired_quotes (mm._mid_with_skew tp bt)) x ≤
            closenessTo (mm._desired_quotes (mm._mid_with_skew tp bt)) e := by
  cases hfb : findBuyToken orders with
  | none =>
    have hnil := findBuyToken_none orders hfb
    subst hnil
    refine ⟨by simpa using hb, by simpa using ha, ?_⟩
    intro bt hbt
    simp [findBuyToken, List.find?] at hbt
  | some bt =>
    have hC := cancellable_eq mm orders tp bt hfb
    set q := mm._desired_quotes (mm._mid_with_skew tp bt) with hq
    set F := farAways mm q orders with hF
    set EB := excess mm.max_bids (sortClose q (keepSide Side.BUY F orders)) with hEB
    set ES := excess mm.max_asks (sortClose q (keepSide Side.SELL F orders)) with hES
    have hFC : ∀ o, o ∈ F → o ∈ mm.cancellable_orders orders tp := by
      intro o ho
      rw [hC]
      exact List.mem_append_left _ (List.mem_append_left _ ho)
    have hEBC : ∀ o, o ∈ EB → o ∈ mm.cancellable_orders orders tp := by
      intro o ho
      rw [hC]
      exact List.mem_append_left _ (List.mem_append_right _ ho)
    have hESC : ∀ o, o ∈ ES → o ∈ mm.cancellable_orders orders tp := by
      intro o ho
      rw [hC]
      exact List.mem_append_right _ ho
    refine ⟨survivors_le orders _ F Side.BUY q mm.max_bids hb hFC hEBC,
      survivors_le orders _ F Side.SELL q mm.max_asks ha hFC hESC, ?_⟩
    intro bt2 hbt2 x hx e he hside hxC hefar heC
    injection hbt2 with hbt2e
    subst hbt2e
    have heF : e ∉ F := by
      intro hf
      rw [hF] at hf
      unfold farAways at hf
      rw [List.mem_filter] at hf
      simp only [decide_eq_true_eq] at hf
      exact hefar hf.2
    have hxF : x ∉ F := fun hf => hxC (hFC x hf)
    have heCE : e ∈ EB ∨ e ∈ ES := by
      rw [hC] at heC
      rcases List.mem_append.mp heC with h12 | h3
      · rcases List.mem_append.mp h12 with h1 | h2
        · exact absurd h1 heF
        · exact Or.inl h2
      · exact Or.inr h3
    rcases heCE with hEB2 | hES2
    · have hes := mem_excess mm.max_bids q Side.BUY F orders e hEB2
      have hxs : x.side = Side.BUY := by rw [hside, hes.2.1]
      exact survivors_closest orders _ F Side.BUY q mm.max_bids hEBC x e hx hxs hxC hxF hEB2
    · have hes := mem_excess mm.max_asks q Side.SELL F orders e hES2
      have hxs : x.side = Side.SELL := by rw [hside, hes.2.1]
      exact survivors_closest orders _ F Side.SELL q mm.max_asks hESC x e hx hxs hxC hxF hES2

theorem C4_count_caps_and_closest_witness :
    (0 : ℤ) ≤ mm_caps1.max_bids ∧ (0 : ℤ) ≤ mm_caps1.max_asks ∧
      (((ords2.filter (fun o => decide (o.side = Side.BUY ∧
          o ∉ mm_caps1.cancellable_orders ords2 (49 / 100)))).length : ℤ) ≤ mm_caps1.max_bids ∧
        ((ords2.filter (fun o => decide (o.side = Side.SELL ∧
          o ∉ mm_caps1.cancellable_orders ords2 (49 / 100)))).length : ℤ) ≤ mm_caps1.max_asks ∧
        ∀ bt, findBuyToken ords2 = some bt →
          ∀ x ∈ ords2, ∀ e ∈ ords2, x.side = e.side →
            x ∉ mm_caps1.cancellable_orders ords2 (49 / 100) →
            ¬ mm_caps1.cancel_if_away_by <
              closenessTo (mm_caps1._desired_quotes (mm_caps1._mid_with_skew (49 / 100) bt)) e →
            e ∈ mm_caps1.cancellable_orders ords2 (49 / 100) →
            closenessTo (mm_caps1._desired_quotes (mm_caps1._mid_with_skew (49 / 100) bt)) x ≤
              closenessTo (mm_caps1._desired_quotes (mm_caps1._mid_with_skew (49 / 100) bt)) e) := by
  have hb : (0 : ℤ) ≤ mm_caps1.max_bids := by
    have h : mm_caps1.max_bids = pyInt 1 := by
      simp [mm_caps1, SafeSpread.init, cfg_getD, cfg_get, List.lookup]
    rw [h]
    norm_num [pyInt]
  have ha : (0 : ℤ) ≤ mm_caps1.max_asks := by
    have h : mm_caps1.max_asks = pyInt 2 := by
      simp [mm_caps1, SafeSpread.init, cfg_getD, cfg_get, List.lookup]
    rw [h]
    norm_num [pyInt]
  exact ⟨hb, ha, C4_count_caps_and_closest mm_caps1 ords2 (49 / 100) hb ha⟩

/-- The ask half never contributes a BUY. -/
theorem filter_buy_askPart (mm : SafeSpread) (orders : List Order) (tb : ℚ)
    (q : ℚ × ℚ) (bt : Token) :
    (askPart mm orders tb q bt).filter (fun o => decide (o.side = Side.BUY)) = [] := by
  simp only [askPart]
  split
  · split
    · simp
    · rfl
  · rfl

/-- The bid half is empty or the single eligible BUY. -/
theorem bidPart_cases (mm : SafeSpread) (orders : List Order) (cb : ℚ)
    (q : ℚ × ℚ) (bt : Token) :
    bidPart mm orders cb q bt = [] ∨
      (bidPart mm orders cb q bt = [⟨q.1, mm._bid_size cb q.1 bt, Side.BUY, bt⟩] ∧
        mm._can_place_bid cb q.1 bt = true) := by
  simp only [bidPart]
  split
  · rename_i hcond
    split
    · right
      refine ⟨rfl, ?_⟩
      simp only [Bool.and_eq_true] at hcond
      exact hcond.2
    · left
      rfl
  · left
    rfl

theorem buyNotional_append (l1 l2 : List Order) :
    SafeSpreadStrategy.buyNotional (l1 ++ l2) =
      SafeSpreadStrategy.buyNotional l1 + SafeSpreadStrategy.buyNotional l2 := by
  simp [SafeSpreadStrategy.buyNotional, List.filter_append]

theorem buyNotional_askPart (mm : SafeSpread) (orders : List Order) (tb : ℚ)
    (q : ℚ × ℚ) (bt : Token) :
    SafeSpreadStrategy.buyNotional (askPart mm orders tb q bt) = 0 := by
  unfold SafeSpreadStrategy.buyNotional
  rw [filter_buy_askPart]
  rfl

/-- The BUY notional of one `new_orders` call is zero or bounded by the free
collateral it was given plus one rounding increment of notional. -/
theorem buyNotional_new_orders_le (mm : SafeSpread) (orders : List Order)
    (cb tb tp : ℚ) (bt : Token) :
    SafeSpreadStrategy.buyNotional (mm.new_orders orders cb tb tp bt) = 0 ∨
      SafeSpreadStrategy.buyNotional (mm.new_orders orders cb tb tp bt) ≤
        cb + (1 - MIN_TICK) * (1 / (2 * 10 ^ MAX_DECIMALS)) := by
  simp only [SafeSpread.new_orders]
  rw [buyNotional_append, buyNotional_askPart, zero_add]
  set q := mm._desired_quotes (mm._mid_with_skew tp bt) with hq
  rcases bidPart_cases mm orders cb q bt with h | ⟨h, hcan⟩
  · left
    rw [h]
    rfl
  · right
    rw [h]
    have hbn : SafeSpreadStrategy.buyNotional
        [⟨q.1, mm._bid_size cb q.1 bt, Side.BUY, bt⟩] = mm._bid_size cb q.1 bt * q.1 := by
      simp [SafeSpreadStrategy.buyNotional]
    rw [hbn]
    have hp : 0 < q.1 := by
      rw [hq, desired_quotes_fst]
      exact roundPrice_pos _
    have hple : q.1 ≤ 1 - MIN_TICK := by
      rw [hq, desired_quotes_fst]
      exact roundPrice_le _
    have hsz := bid_size_le_cash mm cb q.1 bt hp hcan
    calc mm._bid_size cb q.1 bt * q.1 ≤ (cb / q.1 + 1 / (2 * 10 ^ MAX_DECIMALS)) * q.1 :=
        mul_le_mul_of_nonneg_right hsz (le_of_lt hp)
      _ = cb + q.1 * (1 / (2 * 10 ^ MAX_DECIMALS)) := by
        rw [add_mul, div_mul_cancel₀ cb (ne_of_gt hp)]
        ring
      _ ≤ cb + (1 - MIN_TICK) * (1 / (2 * 10 ^ MAX_DECIMALS)) := by
        have hm : q.1 * (1 / (2 * 10 ^ MAX_DECIMALS)) ≤
            (1 - MIN_TICK) * (1 / (2 * 10 ^ MAX_DECIMALS)) :=
          mul_le_mul_of_nonneg_right hple (by positivity)
        linarith

/-- Chaining the per-pair bound through the running free collateral. -/
theorem buyNotional_two_pairs_le (mm1 : SafeSpread) (oA oB : List Order)
    (tbA tbB tpA tpB f0 : ℚ) :
    SafeSpreadStrategy.buyNotional (mm1.new_orders oA f0 tbA tpA Token.A ++
      mm1.new_orders oB
        (f0 - SafeSpreadStrategy.buyNotional (mm1.new_orders oA f0 tbA tpA Token.A))
        tbB tpB Token.B) ≤
      max 0 f0 + 2 * ((1 - MIN_TICK) * (1 / (2 * 10 ^ MAX_DECIMALS))) := by
  rw [buyNotional_append]
  have hc0 : 0 ≤ (1 - MIN_TICK) * (1 / (2 * 10 ^ MAX_DECIMALS)) := by
    norm_num [MIN_TICK, MAX_DECIMALS]
  have hmax1 : (0 : ℚ) ≤ max 0 f0 := le_max_left _ _
  have hmax2 : f0 ≤ max 0 f0 := le_max_right _ _
  rcases buyNotional_new_orders_le mm1 oA f0 tbA tpA Token.A with hA | hA <;>
    rcases buyNotional_new_orders_le mm1 oB
      (f0 - SafeSpreadStrategy.buyNotional (mm1.new_orders oA f0 tbA tpA Token.A))
      tbB tpB Token.B with hB | hB <;>
    linarith

/-- C2 (amended): the total notional of newly placed BUYs across both token
pairs in one cycle is at most the free collateral at cycle start (floored at
zero) plus one rounding increment of notional per pair, i.e. plus
`2 * (1 - MIN_TICK) * (1/2) * 10 ^ (-MAX_DECIMALS) = 0.0099`. -/
theorem C2_amended_collateral_bound (mm : SafeSpread) (ob : OrderBook)
    (tp : Token → ℚ) :
    SafeSpreadStrategy.buyNotional (SafeSpreadStrategy.get_orders mm ob tp).2 ≤
      max 0 (SafeSpreadStrategy.freeCollateralStart mm ob tp) +
        2 * ((1 - MIN_TICK) * (1 / (2 * 10 ^ MAX_DECIMALS))) := by
  simp only [SafeSpreadStrategy.get_orders]
  exact buyNotional_two_pairs_le (mm.set_context ob.balances
      (SafeSpreadStrategy.freeCollateralStart mm ob tp))
    (SafeSpreadStrategy.ordersByBuyToken ob.orders Token.A)
    (SafeSpreadStrategy.ordersByBuyToken ob.orders Token.B)
    (SafeSpreadStrategy.freeTokenBalance mm ob tp Token.A.complement)
    (SafeSpreadStrategy.freeTokenBalance mm ob tp Token.B.complement)
    (tp Token.A) (tp Token.B)
    (SafeSpreadStrategy.freeCollateralStart mm ob tp)

/-- With zero holdings of `t`, the skewed midpoint of 0.51 is 0.51. -/
theorem mid51_of (mm : SafeSpread) (t : Token) (hbal : mm.balances t = 0) :
    mm._mid_with_skew (51 / 100) t = 51 / 100 := by
  rw [SafeSpread._mid_with_skew, hbal, zero_mul, sub_zero]
  exact round_price_eval_grid (51 / 100) 51 (by norm_num [MIN_TICK]) (by norm_num [MIN_TICK])
    (by norm_num [MAX_DECIMALS])

/-- With `target_spread = 0.02` the quotes around 0.51 are (0.50, 0.52). -/
theorem quotes51_of (mm : SafeSpread) (hov : mm.half_spread_override = none)
    (hts : mm.target_spread = 1 / 50) :
    mm._desired_quotes (51 / 100) = (1 / 2, 13 / 25) := by
  have hhw : mm.half_width = 1 / 100 := by
    rw [SafeSpread.half_width, hov, hts]
    norm_num [MIN_TICK]
  simp only [SafeSpread._desired_quotes, hhw]
  rw [show (51 : ℚ) / 100 - 1 / 100 = 50 / 100 by norm_num,
    show (51 : ℚ) / 100 + 1 / 100 = 52 / 100 by norm_num]
  rw [round_price_eval_grid (50 / 100) 50 (by norm_num [MIN_TICK]) (by norm_num [MIN_TICK])
    (by norm_num [MAX_DECIMALS])]
  rw [round_price_eval_grid (52 / 100) 52 (by norm_num [MIN_TICK]) (by norm_num [MIN_TICK])
    (by norm_num [MAX_DECIMALS])]
  rw [if_neg (by norm_num)]
  norm_num

/-- A zero free complement balance never admits an ASK. -/
theorem can_place_ask_zero (mm : SafeSpread) (hmp : mm.min_place_size = 1 / 10) :
    mm._can_place_ask 0 = false := by
  rw [SafeSpread._can_place_ask, hmp]
  norm_num [MIN_SIZE]

/-- The cancel phase of the C2 instance is empty. -/
theorem c2_eval_cancels :
    SafeSpreadStrategy.ordersToCancel mm_os20 ob7503 (fun _ => 51 / 100) = [] := by
  simp [SafeSpreadStrategy.ordersToCancel, SafeSpreadStrategy.ordersByBuyToken, ob7503,
    SafeSpread.cancellable_orders]

/-- The free collateral of the C2 instance at cycle start. -/
theorem c2_eval_free :
    SafeSpreadStrategy.freeCollateralStart mm_os20 ob7503 (fun _ => 51 / 100) = 7503 / 1000 := by
  simp [SafeSpreadStrategy.freeCollateralStart, SafeSpreadStrategy.openOrders, c2_eval_cancels,
    ob7503, SafeSpreadStrategy.buyNotional]

/-- Full evaluation of the C2 instance: pair A places a BUY of size 15.01 at
price 0.50 (notional 7.505 against 7.503 free collateral) and pair B is then
rejected for lack of collateral. -/
theorem c2_eval_get_orders :
    SafeSpreadStrategy.get_orders mm_os20 ob7503 (fun _ => 51 / 100) =
      ([], [⟨1 / 2, 1501 / 100, Side.BUY, Token.A⟩]) := by
  have hftb : ∀ t, SafeSpreadStrategy.freeTokenBalance mm_os20 ob7503 (fun _ => 51 / 100) t = 0 := by
    intro t
    simp [SafeSpreadStrategy.freeTokenBalance, SafeSpreadStrategy.lockedSells,
      SafeSpreadStrategy.openOrders, c2_eval_cancels, ob7503]
  have hby : ∀ t, SafeSpreadStrategy.ordersByBuyToken ob7503.orders t = [] := by
    intro t
    simp [SafeSpreadStrategy.ordersByBuyToken, ob7503]
  obtain ⟨hts, hov, hos, hcap, hnot, hskew, hmp, _⟩ := mm_os20_fields
  set mm1 := mm_os20.set_context ob7503.balances (7503 / 1000) with hmm1
  have hts1 : mm1.target_spread = 1 / 50 := by
    rw [hmm1]
    simpa [SafeSpread.set_context] using hts
  have hov1 : mm1.half_spread_override = none := by
    rw [hmm1]
    simpa [SafeSpread.set_context] using hov
  have hos1 : mm1.order_size = 20 := by
    rw [hmm1]
    simpa [SafeSpread.set_context] using hos
  have hcap1 : mm1.max_inventory_per_token = 40 := by
    rw [hmm1]
    simpa [SafeSpread.set_context] using hcap
  have hnot1 : mm1.max_notional_per_side = 120 := by
    rw [hmm1]
    simpa [SafeSpread.set_context] using hnot
  have hmp1 : mm1.min_place_size = 1 / 10 := by
    rw [hmm1]
    simpa [SafeSpread.set_context] using hmp
  have hbal1 : ∀ t, mm1.balances t = 0 := by
    intro t
    rw [hmm1]
    simp [SafeSpread.set_context, ob7503]
  have hmidA : ∀ t, mm1._mid_with_skew (51 / 100) t = 51 / 100 :=
    fun t => mid51_of mm1 t (hbal1 t)
  have hqA : mm1._desired_quotes (51 / 100) = (1 / 2, 13 / 25) := quotes51_of mm1 hov1 hts1
  have hcpa1 : mm1._can_place_ask 0 = false := can_place_ask_zero mm1 hmp1
  have hcpbA : mm1._can_place_bid (7503 / 1000) (1 / 2) Token.A = true := by
    rw [SafeSpread._can_place_bid, hmp1, hos1, hnot1, hcap1, hbal1]
    norm_num [MIN_SIZE]
  have hbsA : mm1._bid_size (7503 / 1000) (1 / 2) Token.A = 1501 / 100 := by
    simp only [SafeSpread._bid_size, hbal1, hos1, hcap1, hnot1, _clamp]
    rw [show (7503 : ℚ) / 1000 / (1 / 2) = 7503 / 500 by norm_num,
      show (120 : ℚ) / (1 / 2) = 240 by norm_num]
    rw [show max (0 : ℚ) (40 - 0) = 40 by norm_num]
    rw [show min (20 : ℚ) (min ((7503 : ℚ) / 500) (min (240 : ℚ) 40)) = 7503 / 500 by norm_num]
    rw [show min ((10 : ℚ) ^ 9) ((7503 : ℚ) / 500) = 7503 / 500 by norm_num]
    rw [show max MIN_SIZE ((7503 : ℚ) / 500) = 7503 / 500 by norm_num [MIN_SIZE]]
    rw [roundDec_eval_high MAX_DECIMALS _ 1500 (by norm_num [MAX_DECIMALS])
      (by norm_num [MAX_DECIMALS])]
    norm_num [MAX_DECIMALS]
  have hnewA : mm1.new_orders [] (7503 / 1000) 0 (51 / 100) Token.A =
      [⟨1 / 2, 1501 / 100, Side.BUY, Token.A⟩] := by
    simp only [SafeSpread.new_orders, askPart, bidPart, hmidA, hqA, has_near_nil, hcpa1,
      hcpbA, hbsA, hmp1, Bool.not_false, Bool.true_and, Bool.and_false, Bool.and_true, MIN_SIZE]
    norm_num
  have hbnA : SafeSpreadStrategy.buyNotional [(⟨1 / 2, 1501 / 100, Side.BUY, Token.A⟩ : Order)] =
      1501 / 200 := by
    simp [SafeSpreadStrategy.buyNotional]
    norm_num
  have hcpbB : mm1._can_place_bid (-1 / 500) (1 / 2) Token.B = false := by
    rw [SafeSpread._can_place_bid, hmp1]
    norm_num [MIN_SIZE]
  have hnewB : mm1.new_orders [] (-1 / 500) 0 (51 / 100) Token.B = [] := by
    simp only [SafeSpread.new_orders, askPart, bidPart, hmidA, hqA, has_near_nil, hcpa1,
      hcpbB, Bool.not_false, Bool.true_and, Bool.and_false, Bool.and_true]
    simp
  have hsub : (7503 : ℚ) / 1000 - 1501 / 200 = -1 / 500 := by norm_num
  simp only [SafeSpreadStrategy.get_orders, c2_eval_cancels, c2_eval_free, hftb, hby,
    hnewA, hbnA, hsub, hnewB, List.append_nil]

/-- C2 counterexample: in one cycle with free collateral 7.503, the placed BUY
notional is 15.01 × 0.50 = 7.505 > 7.503 — the collateral-conservation claim
fails by the final size-rounding increment. -/
theorem C2_counterexample :
    ¬ SafeSpreadStrategy.buyNotional
        (SafeSpreadStrategy.get_orders mm_os20 ob7503 (fun _ => 51 / 100)).2 ≤
      SafeSpreadStrategy.freeCollateralStart mm_os20 ob7503 (fun _ => 51 / 100) := by
  rw [c2_eval_get_orders, c2_eval_free]
  simp [SafeSpreadStrategy.buyNotional]
  norm_num

theorem C1_amended_quotes_never_cross_witness :
    ((SafeSpread.init [])._desired_quotes (512 / 1000)).1 < 1 - MIN_TICK ∧
      ((SafeSpread.init [])._desired_quotes (512 / 1000)).1 <
        ((SafeSpread.init [])._desired_quotes (512 / 1000)).2 := by
  have h : ((SafeSpread.init [])._desired_quotes (512 / 1000)).1 < 1 - MIN_TICK := by
    have h1 : ((SafeSpread.init [])._desired_quotes (512 / 1000)).1 = 1 / 2 := by
      norm_num [SafeSpread._desired_quotes, SafeSpread.half_width, SafeSpread.init,
        cfg_get, cfg_getD, List.lookup, _round_price, roundDec, rndHalfEven, MIN_TICK, MAX_DECIMALS]
    rw [h1]
    norm_num [MIN_TICK]
  exact ⟨h, (C1_amended_quotes_never_cross (SafeSpread.init []) (512 / 1000)).2 h⟩

end PolyMarketMaker
